import Mathlib

/-!
Shallow embedding of the trading execution and risk core of the OllamaFun
repository (src/risk, src/execution, src/backtesting/engine.py and the
domain models in src/core/models.py), together with theorems settling the
frozen claims about it.

Modelling conventions:
* Python floats are modelled as exact rationals (ℚ); integer quantities as ℤ/ℕ.
* Python `round` (banker's rounding, half to even) is `pyRound`;
  `round(x, 10)` (ten decimal digits) is `pyRound10`.
* Fallible Python code (a raised exception) is modelled with `Option`.
* The source's injected randomness (`random.gauss`, `random.random`) is
  modelled as explicit streams of draws supplied by the environment, and the
  monotonic clock as an explicit `now` argument, as the spec requires for
  determinism.
* Rational constants are written with `mkRat` so that all definitions reduce
  by `decide`/`rfl` on concrete inputs.
-/

attribute [local semireducible] Rat.mul Rat.add Rat.sub Rat.inv

/-- Floor of a rational, written so that it evaluates by kernel reduction. -/
def ratFloor (q : ℚ) : ℤ := q.num / (q.den : ℤ)

theorem ratFloor_eq_floor (q : ℚ) : ratFloor q = ⌊q⌋ := Rat.floor_def.symm

/-- Python `round(x)`: round half to even (banker's rounding). -/
def pyRound (q : ℚ) : ℤ :=
  let f := ratFloor q
  let r := q - (f : ℚ)
  if r < mkRat 1 2 then f
  else if mkRat 1 2 < r then f + 1
  else if f % 2 = 0 then f else f + 1

/-- Python `round(x, 10)`: round to ten decimal digits, half to even. -/
def pyRound10 (q : ℚ) : ℚ := (pyRound (q * 10000000000) : ℚ) * mkRat 1 10000000000

inductive Direction | long | short
deriving DecidableEq, Repr

inductive TradeStatus | opened | closed | cancelled
deriving DecidableEq, Repr

inductive RiskDecision | approved | rejected
deriving DecidableEq, Repr

inductive Severity | info | warning | critical
deriving DecidableEq, Repr

/-! ## src/risk/stop_loss.py -/

/-- `_round_to_tick` (src/risk/stop_loss.py): round a price to the nearest
valid tick, `round(round(price / tick_size) * tick_size, 10)`; the identity
when `tick_size <= 0`. -/
def round_to_tick (price tick_size : ℚ) : ℚ :=
  if tick_size ≤ 0 then price
  else pyRound10 ((pyRound (price / tick_size) : ℚ) * tick_size)

/-- `calculate_initial_stop` (src/risk/stop_loss.py); raises on `atr <= 0`,
modelled as `none`. -/
def calculate_initial_stop (entry_price : ℚ) (direction : Direction)
    (atr atr_multiple tick_size : ℚ) : Option ℚ :=
  if atr ≤ 0 then none
  else
    let stop_distance := atr * atr_multiple
    let raw_stop := match direction with
      | .long => entry_price - stop_distance
      | .short => entry_price + stop_distance
    some (round_to_tick raw_stop tick_size)

/-- `calculate_stop_distance_ticks` (src/risk/stop_loss.py). -/
def calculate_stop_distance_ticks (entry_price stop_price : ℚ)
    (direction : Direction) (tick_size : ℚ) : ℚ :=
  let distance := match direction with
    | .long => entry_price - stop_price
    | .short => stop_price - entry_price
  if distance ≤ 0 then 0 else distance / tick_size

/-- `calculate_risk_reward_ratio` (src/risk/stop_loss.py). -/
def calculate_risk_reward_ratio (entry_price stop_price target_price : ℚ)
    (direction : Direction) : ℚ :=
  let risk := match direction with
    | .long => entry_price - stop_price
    | .short => stop_price - entry_price
  let reward := match direction with
    | .long => target_price - entry_price
    | .short => entry_price - target_price
  if risk ≤ 0 then 0 else reward / risk

/-- `update_trailing_stop` (src/risk/stop_loss.py): returns
`(new_stop_price, trailing_activated)`. -/
def update_trailing_stop (entry_price current_price current_stop : ℚ)
    (direction : Direction) (atr : ℚ)
    (trailing_atr_multiple : ℚ := mkRat 3 2)
    (activation_r_multiple : ℚ := 1)
    (tick_size : ℚ := mkRat 1 4) : ℚ × Bool :=
  if atr ≤ 0 then (current_stop, false)
  else
    let initial_risk := match direction with
      | .long => entry_price - current_stop
      | .short => current_stop - entry_price
    let current_profit := match direction with
      | .long => current_price - entry_price
      | .short => entry_price - current_price
    if initial_risk ≤ 0 then (current_stop, false)
    else if current_profit < initial_risk * activation_r_multiple then
      (current_stop, false)
    else
      let trail_distance := atr * trailing_atr_multiple
      match direction with
      | .long =>
        let new_stop := round_to_tick (current_price - trail_distance) tick_size
        if current_stop < new_stop then (new_stop, true) else (current_stop, true)
      | .short =>
        let new_stop := round_to_tick (current_price + trail_distance) tick_size
        if new_stop < current_stop then (new_stop, true) else (current_stop, true)

/-- `validate_stop_placement` (src/risk/stop_loss.py): returns `(valid, reason)`.
Numeric interpolations in the source's reason strings are elided. -/
def validate_stop_placement (entry_price stop_price : ℚ) (direction : Direction)
    (atr max_atr_multiple tick_size : ℚ) : Bool × String :=
  match direction with
  | .long =>
    if entry_price ≤ stop_price then (false, "Long stop must be below entry price")
    else validate_stop_placement_rest (entry_price - stop_price) atr
      max_atr_multiple tick_size
  | .short =>
    if stop_price ≤ entry_price then (false, "Short stop must be above entry price")
    else validate_stop_placement_rest (stop_price - entry_price) atr
      max_atr_multiple tick_size
where
  /-- The direction-independent tail of `validate_stop_placement`. -/
  validate_stop_placement_rest (distance atr max_atr_multiple tick_size : ℚ) :
      Bool × String :=
    if distance ≤ 0 then (false, "Stop distance must be positive")
    else if 0 < atr ∧ atr * max_atr_multiple < distance then
      (false, "Stop distance exceeds ATR limit")
    else
      let ticks := distance / tick_size
      if mkRat 1 1000 < |ticks - (pyRound ticks : ℚ)| then
        (false, "Stop distance not aligned to tick size")
      else (true, "")

/-! ## src/risk/position_sizer.py -/

/-- `calculate_position_size` (src/risk/position_sizer.py). -/
def calculate_position_size (account_equity stop_distance_ticks tick_value
    max_risk_pct : ℚ) (max_position_size : ℤ) : ℤ :=
  if account_equity ≤ 0 then 0
  else if stop_distance_ticks ≤ 0 then 0
  else if tick_value ≤ 0 then 0
  else if max_risk_pct ≤ 0 then 0
  else
    let max_risk_dollars := account_equity * max_risk_pct
    let risk_per_contract := stop_distance_ticks * tick_value
    if risk_per_contract ≤ 0 then 0
    else max (min (ratFloor (max_risk_dollars / risk_per_contract))
      max_position_size) 0

/-- `validate_stop_distance` (src/risk/position_sizer.py). -/
def validate_stop_distance (stop_distance_ticks atr_ticks max_atr_multiple : ℚ) :
    Bool :=
  if atr_ticks ≤ 0 then false
  else if stop_distance_ticks ≤ 0 then false
  else decide (stop_distance_ticks ≤ atr_ticks * max_atr_multiple)

example : calculate_position_size 10000 20 (mkRat 5 4) (mkRat 3 200) 2 = 2 := by
  decide
example : update_trailing_stop 5000 5005 (mkRat 9995 2) .long 3 =
    (mkRat 10001 2, true) := by decide

/-! ## src/core/models.py -/

/-- `RiskEvent` (src/core/models.py). The structured `details` dict and the
wall-clock timestamp are not modelled; no claim concerns their contents. -/
structure RiskEvent where
  event_type : String
  severity : Severity
deriving DecidableEq, Repr

/-- `Signal` (src/core/models.py). `stop_loss` is carried as an `Option` so
that the Risk Manager's defensive `signal.stop_loss is None` check (check 4)
is representable. -/
structure Signal where
  strategy : String := "mean_reversion"
  direction : Direction
  confidence : ℚ := 0
  entry_price : ℚ
  stop_loss : Option ℚ
  take_profit : Option ℚ := none
  take_profit_primary : Option ℚ := none
  take_profit_secondary : Option ℚ := none
deriving DecidableEq, Repr

/-- `RiskResult` (src/core/models.py). -/
structure RiskResult where
  decision : RiskDecision
  position_size : ℤ := 0
  reason : String := ""
  signal : Option Signal := none
deriving DecidableEq, Repr

/-- `Trade` (src/core/models.py). Entry/exit times are abstract counters. -/
structure Trade where
  strategy : String
  direction : Direction
  entry_price : ℚ
  exit_price : Option ℚ := none
  stop_loss : ℚ
  take_profit : Option ℚ := none
  quantity : ℤ := 1
  entry_time : ℕ := 0
  exit_time : Option ℕ := none
  status : TradeStatus := .opened
  pnl_ticks : Option ℚ := none
  pnl_dollars : Option ℚ := none
  risk_reward_actual : Option ℚ := none
  commission : ℚ := mkRat 31 25
  slippage_ticks : ℚ := 0
  signal_confidence : Option ℚ := none
  notes : String := ""
deriving DecidableEq, Repr

/-- `Trade.calculate_pnl` (src/core/models.py); tick size 0.25 is hardcoded
in the source. -/
def Trade.calculate_pnl (t : Trade) (tick_value : ℚ := mkRat 5 4) : Trade :=
  match t.exit_price with
  | none => t
  | some ex =>
    let ticks := match t.direction with
      | .long => (ex - t.entry_price) / mkRat 1 4
      | .short => (t.entry_price - ex) / mkRat 1 4
    { t with pnl_ticks := some ticks,
             pnl_dollars := some (ticks * tick_value * t.quantity - t.commission) }

/-- `Trade.calculate_risk_reward` (src/core/models.py). -/
def Trade.calculate_risk_reward (t : Trade) : Trade :=
  match t.exit_price with
  | none => t
  | some ex =>
    let risk := match t.direction with
      | .long => t.entry_price - t.stop_loss
      | .short => t.stop_loss - t.entry_price
    let reward := match t.direction with
      | .long => ex - t.entry_price
      | .short => t.entry_price - ex
    if 0 < risk then { t with risk_reward_actual := some (reward / risk) } else t

/-- `Position` (src/core/models.py). -/
structure Position where
  trade : Trade
  current_price : ℚ
  unrealized_pnl : ℚ := 0
  trailing_stop : Option ℚ := none
  trailing_activated : Bool := false
  scale_out_done : Bool := false
  original_quantity : Option ℤ := none
deriving DecidableEq, Repr

/-- `self.trailing_stop or self.trade.stop_loss`: Python's `or` falls back
when the trailing stop is `None` — or `0.0`, which is falsy. -/
def Position.effective_stop (p : Position) : ℚ :=
  match p.trailing_stop with
  | some ts => if ts = 0 then p.trade.stop_loss else ts
  | none => p.trade.stop_loss

/-- `Position.update_price` (src/core/models.py); tick size 0.25 hardcoded. -/
def Position.update_price (p : Position) (price : ℚ)
    (tick_value : ℚ := mkRat 5 4) : Position :=
  let ticks := match p.trade.direction with
    | .long => (price - p.trade.entry_price) / mkRat 1 4
    | .short => (p.trade.entry_price - price) / mkRat 1 4
  { p with current_price := price,
           unrealized_pnl := ticks * tick_value * p.trade.quantity }

/-- `Position.should_stop_out` (src/core/models.py). -/
def Position.should_stop_out (p : Position) : Bool :=
  match p.trade.direction with
  | .long => p.current_price ≤ p.effective_stop
  | .short => p.effective_stop ≤ p.current_price

/-- `Position.should_take_profit` (src/core/models.py). -/
def Position.should_take_profit (p : Position) : Bool :=
  match p.trade.take_profit with
  | none => false
  | some tp =>
    match p.trade.direction with
    | .long => tp ≤ p.current_price
    | .short => p.current_price ≤ tp

/-! ## src/risk/daily_limits.py -/

/-- `DailyLimitsTracker` (src/risk/daily_limits.py). The monotonic clock is
passed explicitly as `now` to the operations that read it. -/
structure DailyLimitsTracker where
  account_equity : ℚ
  daily_loss_limit_pct : ℚ := mkRat 3 100
  weekly_loss_limit_pct : ℚ := mkRat 6 100
  max_daily_trades : ℕ := 10
  cooldown_seconds : ℚ := 60
  realized_pnl_today : ℚ := 0
  realized_pnl_week : ℚ := 0
  unrealized_pnl : ℚ := 0
  trades_today : ℕ := 0
  daily_halted : Bool := false
  weekly_halted : Bool := false
  last_loss_time : Option ℚ := none
  events : List RiskEvent := []
deriving DecidableEq, Repr

def DailyLimitsTracker.daily_loss_limit_dollars (t : DailyLimitsTracker) : ℚ :=
  t.account_equity * t.daily_loss_limit_pct

def DailyLimitsTracker.weekly_loss_limit_dollars (t : DailyLimitsTracker) : ℚ :=
  t.account_equity * t.weekly_loss_limit_pct

def DailyLimitsTracker.total_pnl_today (t : DailyLimitsTracker) : ℚ :=
  t.realized_pnl_today + t.unrealized_pnl

/-- `is_in_cooldown` at monotonic time `now`. -/
def DailyLimitsTracker.is_in_cooldown (t : DailyLimitsTracker) (now : ℚ) : Bool :=
  match t.last_loss_time with
  | none => false
  | some lt => now - lt < t.cooldown_seconds

/-- `_check_daily_limit` (src/risk/daily_limits.py). -/
def DailyLimitsTracker.check_daily_limit (t : DailyLimitsTracker) :
    DailyLimitsTracker :=
  if t.daily_halted then t
  else if t.total_pnl_today ≤ -t.daily_loss_limit_dollars then
    { t with daily_halted := true,
             events := t.events ++ [⟨"DAILY_LIMIT", .critical⟩] }
  else t

/-- `_check_weekly_limit` (src/risk/daily_limits.py). -/
def DailyLimitsTracker.check_weekly_limit (t : DailyLimitsTracker) :
    DailyLimitsTracker :=
  if t.weekly_halted then t
  else if t.realized_pnl_week + t.unrealized_pnl ≤ -t.weekly_loss_limit_dollars then
    { t with weekly_halted := true,
             events := t.events ++ [⟨"WEEKLY_LIMIT", .critical⟩] }
  else t

/-- `record_trade_closed` (src/risk/daily_limits.py); `now` is the value
`time.monotonic()` would return at the call. -/
def DailyLimitsTracker.record_trade_closed (t : DailyLimitsTracker)
    (pnl_dollars now : ℚ) : DailyLimitsTracker :=
  let t := { t with
    realized_pnl_today := t.realized_pnl_today + pnl_dollars,
    realized_pnl_week := t.realized_pnl_week + pnl_dollars,
    trades_today := t.trades_today + 1,
    last_loss_time := if pnl_dollars < 0 then some now else t.last_loss_time }
  t.check_daily_limit.check_weekly_limit

/-- `update_unrealized` (src/risk/daily_limits.py). -/
def DailyLimitsTracker.update_unrealized (t : DailyLimitsTracker)
    (unrealized_pnl : ℚ) : DailyLimitsTracker :=
  ({ t with unrealized_pnl := unrealized_pnl }).check_daily_limit.check_weekly_limit

/-- `can_trade` (src/risk/daily_limits.py): `(allowed, reason)`. Numeric
interpolations in the source's reason strings are elided. -/
def DailyLimitsTracker.can_trade (t : DailyLimitsTracker) (now : ℚ) :
    Bool × String :=
  if t.daily_halted then (false, "Daily loss limit reached")
  else if t.weekly_halted then (false, "Weekly loss limit reached")
  else if t.max_daily_trades ≤ t.trades_today then (false, "Max daily trades reached")
  else if t.is_in_cooldown now then (false, "Cooldown active")
  else (true, "")

/-- `reset_daily` (src/risk/daily_limits.py). Note that the source also
clears the `events` list (`self.events.clear()`). -/
def DailyLimitsTracker.reset_daily (t : DailyLimitsTracker) : DailyLimitsTracker :=
  { t with realized_pnl_today := 0, unrealized_pnl := 0, trades_today := 0,
           daily_halted := false, last_loss_time := none, events := [] }

/-- `reset_weekly` (src/risk/daily_limits.py). -/
def DailyLimitsTracker.reset_weekly (t : DailyLimitsTracker) : DailyLimitsTracker :=
  ({ t with realized_pnl_week := 0, weekly_halted := false }).reset_daily

/-! ## src/config.py -/

/-- `RISK_DEFAULTS` (src/config.py); field defaults are the default values.
In the source this is a dict a user config is merged over. -/
structure RiskConfig where
  max_risk_per_trade : ℚ := mkRat 3 200
  daily_loss_limit : ℚ := mkRat 3 100
  weekly_loss_limit : ℚ := mkRat 6 100
  max_daily_trades : ℕ := 10
  min_risk_reward_ratio : ℚ := 2
  max_concurrent_positions : ℕ := 2
  always_use_stop_loss : Bool := true
  max_stop_distance_atr : ℚ := 2
  cooldown_after_loss : ℚ := 60
  max_position_size : ℤ := 2
  skip_first_minutes : ℕ := 5
  skip_last_minutes : ℕ := 5
deriving DecidableEq, Repr

/-- `MES_SPEC` (src/config.py): tick 0.25, tick value 1.25 USD,
commission 0.31 per side. -/
structure ContractSpec where
  tick_size : ℚ := mkRat 1 4
  tick_value : ℚ := mkRat 5 4
  commission_per_side : ℚ := mkRat 31 100
deriving DecidableEq, Repr

/-! ## src/risk/manager.py -/

/-- A wall-clock instant in the America/Chicago timezone, as the Risk
Manager's trading-hours check reads it: `weekday` with 0 = Monday … 6 =
Sunday (Python `datetime.weekday()`), `minute` the minutes since midnight. -/
structure CTTime where
  weekday : ℕ
  minute : ℕ
deriving DecidableEq, Repr, Inhabited

/-- `RiskManager._check_trading_hours` (src/risk/manager.py). `time(h, m)`
comparisons are carried out on minutes since midnight. Numeric
interpolations in reason strings are elided. -/
def check_trading_hours (config : RiskConfig) (now : CTTime) : Bool × String :=
  if now.weekday = 5 then (false, "Market closed (Saturday)")
  else if now.weekday = 6 ∧ now.minute < 17 * 60 then
    (false, "Market closed (Sunday before 5PM CT)")
  else if now.weekday = 4 ∧ 16 * 60 ≤ now.minute then
    (false, "Market closed (Friday after 4PM CT)")
  else if (16 * 60 ≤ now.minute ∧ now.minute < 17 * 60) ∧ now.weekday ≤ 3 then
    (false, "Daily maintenance break (4-5PM CT)")
  else if 17 * 60 ≤ now.minute ∧ now.minute < 17 * 60 + config.skip_first_minutes then
    (false, "Skipping first minutes of session")
  else if now.weekday = 4 ∧ 15 * 60 + (60 - config.skip_last_minutes) ≤ now.minute then
    (false, "Skipping last minutes before close")
  else (true, "")

/-- The mutable state of `RiskManager` (src/risk/manager.py) together with
its construction-time configuration. -/
structure RiskManagerState where
  account_equity : ℚ
  config : RiskConfig := {}
  spec : ContractSpec := {}
  daily_tracker : DailyLimitsTracker
  open_positions : ℕ := 0
  events : List RiskEvent := []
deriving DecidableEq, Repr

/-- The `DailyLimitsTracker` that `RiskManager.__init__` constructs when no
tracker is supplied. -/
def mkDefaultTracker (account_equity : ℚ) (config : RiskConfig) :
    DailyLimitsTracker :=
  { account_equity := account_equity,
    daily_loss_limit_pct := config.daily_loss_limit,
    weekly_loss_limit_pct := config.weekly_loss_limit,
    max_daily_trades := config.max_daily_trades,
    cooldown_seconds := config.cooldown_after_loss }

/-- `RiskManager._reject` (src/risk/manager.py): logs a WARNING event and
builds the rejection result. -/
def RiskManagerState.reject (st : RiskManagerState) (signal : Signal)
    (reason check_name : String) : RiskResult × RiskManagerState :=
  (⟨.rejected, 0, reason, some signal⟩,
   { st with events := st.events ++ [⟨"SIGNAL_REJECTED:" ++ check_name, .warning⟩] })

/-- `RiskManager.evaluate` (src/risk/manager.py). `t` is the evaluation
wall-clock time (`current_time`), `now` the monotonic clock read by the
tracker's cooldown check. `none` models the `TypeError` raised when
`validate_stop_placement` is reached with `stop_loss = None` (possible only
with `always_use_stop_loss` off). -/
def RiskManagerState.evaluate (st : RiskManagerState) (signal : Signal)
    (atr : ℚ) (t : CTTime) (now : ℚ) : Option (RiskResult × RiskManagerState) :=
  -- 1. halted / cooldown
  let ct := st.daily_tracker.can_trade now
  if ¬ct.1 then some (st.reject signal ct.2 "DAILY_LIMIT_CHECK")
  -- 2. trading hours
  else
    let hours := check_trading_hours st.config t
    if ¬hours.1 then some (st.reject signal hours.2 "TRADING_HOURS_CHECK")
    -- 3. concurrent positions
    else if st.config.max_concurrent_positions ≤ st.open_positions then
      some (st.reject signal "Max concurrent positions reached" "MAX_POSITIONS_CHECK")
    -- 4. stop-loss presence, then placement validity
    else if st.config.always_use_stop_loss ∧ signal.stop_loss = none then
      some (st.reject signal "Stop-loss is required" "STOP_REQUIRED_CHECK")
    else
      match signal.stop_loss with
      | none => none
      | some stop =>
        let sv := validate_stop_placement signal.entry_price stop signal.direction
          atr st.config.max_stop_distance_atr st.spec.tick_size
        if ¬sv.1 then some (st.reject signal sv.2 "STOP_VALIDATION_CHECK")
        else
          -- 5. stop distance vs ATR ceiling
          let stop_ticks := calculate_stop_distance_ticks signal.entry_price stop
            signal.direction st.spec.tick_size
          if ¬validate_stop_distance stop_ticks (atr / st.spec.tick_size)
              st.config.max_stop_distance_atr then
            some (st.reject signal "Stop distance exceeds ATR limit"
              "ATR_DISTANCE_CHECK")
          -- 6. risk / reward (only when a take-profit is present)
          else if (match signal.take_profit with
              | some tp => decide (calculate_risk_reward_ratio signal.entry_price
                  stop tp signal.direction < st.config.min_risk_reward_ratio)
              | none => false) then
            some (st.reject signal "R:R ratio below minimum" "RR_RATIO_CHECK")
          else
            -- 7. position sizing
            let position_size := calculate_position_size st.account_equity
              stop_ticks st.spec.tick_value st.config.max_risk_per_trade
              st.config.max_position_size
            if position_size ≤ 0 then
              some (st.reject signal
                "Position size calculated as 0 (insufficient equity or stop too wide)"
                "POSITION_SIZE_CHECK")
            else
              some (⟨.approved, position_size, "All risk checks passed", some signal⟩,
                st)

/-- `RiskManager.record_position_opened`. -/
def RiskManagerState.record_position_opened (st : RiskManagerState) :
    RiskManagerState :=
  { st with open_positions := st.open_positions + 1 }

/-- `RiskManager.record_position_closed`: decrement floored at 0 (ℕ
subtraction), then forward the realized P&L to the tracker. -/
def RiskManagerState.record_position_closed (st : RiskManagerState)
    (pnl_dollars now : ℚ) : RiskManagerState :=
  { st with open_positions := st.open_positions - 1,
            daily_tracker := st.daily_tracker.record_trade_closed pnl_dollars now }

/-! ## src/execution/paper_executor.py -/

/-- `PaperExecutor` (src/execution/paper_executor.py). `slippage_ticks_mean`
and `slippage_ticks_std` only parametrize the Gaussian the draws are taken
from; the draws themselves come from the injected stream. The
`paper_mode=True` constructor guard is a construction-time assertion with no
effect on the operations modelled here. -/
structure PaperExecutor where
  slippage_mean : ℚ := mkRat 1 2
  slippage_std : ℚ := mkRat 1 4
  fill_probability : ℚ := 1
  tick_size : ℚ := mkRat 1 4
  commission : ℚ := mkRat 31 50
deriving DecidableEq, Repr

/-- `PaperExecutor._round_to_tick` (no `tick_size <= 0` guard in this copy;
the executor is always constructed with the MES tick 0.25). -/
def PaperExecutor.exec_round_to_tick (ex : PaperExecutor) (price : ℚ) : ℚ :=
  pyRound10 ((pyRound (price / ex.tick_size) : ℚ) * ex.tick_size)

/-- `PaperExecutor._apply_slippage`: `draw` is the `random.gauss` sample;
slippage is floored at zero and always adverse. -/
def PaperExecutor.apply_slippage (ex : PaperExecutor) (price : ℚ)
    (direction : Direction) (is_entry : Bool) (draw : ℚ) : ℚ :=
  let slip_price := max 0 draw * ex.tick_size
  let price := if is_entry then
      match direction with
      | .long => price + slip_price
      | .short => price - slip_price
    else
      match direction with
      | .long => price - slip_price
      | .short => price + slip_price
  ex.exec_round_to_tick price

/-! ## src/execution/order_manager.py -/

/-- The randomness the host injects: `gauss n` is the `n`-th `random.gauss`
sample, `unif n` the `n`-th `random.random` sample, `clock n` the monotonic
clock reading while processing bar `n`. -/
structure ExecutionEnv where
  gauss : ℕ → ℚ
  unif : ℕ → ℚ
  clock : ℕ → ℚ

/-- The mutable state reachable from `OrderManager` (src/execution/
order_manager.py): its open-position list, the Risk Manager (with the Limits
Tracker) it reports to, and the positions of the two random streams. -/
structure OMState where
  rm : RiskManagerState
  positions : List Position := []
  gidx : ℕ := 0
  uidx : ℕ := 0
deriving Repr

/-- `PaperExecutor.execute_entry`. Returns the open `Trade`, or `none` when
the result carries no signal or the probabilistic fill-skip triggers (and
also when the signal has no stop: `Trade(stop_loss=None)` fails pydantic
validation — unreachable for approved results). `random.random` is drawn
only when `fill_probability < 1.0` (Python short-circuit). -/
def exec_entry (ex : PaperExecutor) (env : ExecutionEnv) (s : OMState)
    (rr : RiskResult) (entry_time : ℕ) : Option Trade × OMState :=
  match rr.signal with
  | none => (none, s)
  | some sig =>
    let skip_draw : Bool × OMState :=
      if ex.fill_probability < 1 then
        (decide (ex.fill_probability < env.unif s.uidx), { s with uidx := s.uidx + 1 })
      else (false, s)
    let s := skip_draw.2
    if skip_draw.1 then (none, s)
    else
      let fill := ex.apply_slippage sig.entry_price sig.direction true
        (env.gauss s.gidx)
      let s := { s with gidx := s.gidx + 1 }
      match sig.stop_loss with
      | none => (none, s)
      | some stop =>
        (some { strategy := sig.strategy,
                direction := sig.direction,
                entry_price := fill,
                stop_loss := stop,
                take_profit := sig.take_profit,
                quantity := rr.position_size,
                entry_time := entry_time,
                status := .opened,
                commission := ex.commission * rr.position_size,
                slippage_ticks := |fill - sig.entry_price| / ex.tick_size,
                signal_confidence := some sig.confidence }, s)

/-- `PaperExecutor.execute_exit`: adverse exit slippage, tick rounding, exit
stamp, P&L and realized R:R. -/
def exec_exit (ex : PaperExecutor) (env : ExecutionEnv) (s : OMState)
    (p : Position) (exit_price : ℚ) (reason : String) (exit_time : ℕ) :
    Trade × OMState :=
  let fill := ex.apply_slippage exit_price p.trade.direction false
    (env.gauss s.gidx)
  let t := { p.trade with exit_price := some fill, exit_time := some exit_time,
                          status := .closed, notes := reason }
  (t.calculate_pnl.calculate_risk_reward, { s with gidx := s.gidx + 1 })

/-- `OrderManager._close_position`: execute the exit, then update the Risk
Manager's position count and the Limits Tracker's realized P&L
(`trade.pnl_dollars or 0.0`). -/
def close_position (ex : PaperExecutor) (env : ExecutionEnv) (s : OMState)
    (p : Position) (exit_price : ℚ) (reason : String) (now : ℚ)
    (exit_time : ℕ) : Trade × OMState :=
  let r := exec_exit ex env s p exit_price reason exit_time
  let t := r.1
  let s := r.2
  (t, { s with rm := s.rm.record_position_closed (t.pnl_dollars.getD 0) now })

/-- `OrderManager._open_position`: execute the entry and register the new
position with the Risk Manager. -/
def open_position (ex : PaperExecutor) (env : ExecutionEnv) (s : OMState)
    (rr : RiskResult) (entry_time : ℕ) : Option Position × OMState :=
  let r := exec_entry ex env s rr entry_time
  match r.1 with
  | none => (none, r.2)
  | some t =>
    let p : Position := { trade := t, current_price := t.entry_price,
                          original_quantity := some t.quantity }
    (some p, { r.2 with positions := r.2.positions ++ [p],
                        rm := r.2.rm.record_position_opened })

/-- `OrderManager.process_signals`: open one position per APPROVED result. -/
def process_signals (ex : PaperExecutor) (env : ExecutionEnv) (s : OMState)
    (risk_results : List RiskResult) (entry_time : ℕ) : OMState :=
  risk_results.foldl
    (fun s rr =>
      if rr.decision ≠ RiskDecision.approved then s
      else (open_position ex env s rr entry_time).2)
    s

/-- `OrderManager._update_trailing_stop`: recompute the trailing stop from
the bar close with `atr_for_trailing` (all other arguments at the source
defaults) and persist it when activated. -/
def om_update_trailing (atr_for_trailing : ℚ) (p : Position) (bar_close : ℚ) :
    Position :=
  let r := update_trailing_stop p.trade.entry_price bar_close p.effective_stop
    p.trade.direction atr_for_trailing
  if r.2 then { p with trailing_stop := some r.1, trailing_activated := true }
  else p

/-- `OrderManager._get_primary_target`. -/
def get_primary_target (p : Position) : Option ℚ :=
  if ¬p.scale_out_done ∧ 1 < p.trade.quantity then p.trade.take_profit else none

/-- `OrderManager._should_scale_out`. -/
def should_scale_out (p : Position) (bar_close : ℚ) : Bool :=
  if p.scale_out_done then false
  else if p.trade.quantity ≤ 1 then false
  else
    match get_primary_target p with
    | none => false
    | some primary =>
      match p.trade.direction with
      | .long => primary ≤ bar_close
      | .short => bar_close ≤ primary

/-- `OrderManager._execute_scale_out`: close `quantity // 2` contracts at
the primary target with tick size 0.25 and tick value 1.25 hardcoded, move
the stop to breakeven, record the partial P&L directly against the Limits
Tracker (no Executor involved), keep the position open. -/
def execute_scale_out (s : OMState) (p : Position) (now : ℚ) :
    Position × OMState :=
  match p.trade.take_profit with
  | none => (p, s)
  | some primary =>
    let scale_qty := p.trade.quantity / 2
    if scale_qty ≤ 0 then (p, s)
    else
      let entry := p.trade.entry_price
      let t := { p.trade with quantity := p.trade.quantity - scale_qty }
      let p := { p with
        trade := t
        scale_out_done := true
        trailing_stop := some entry
        trailing_activated := true }
      let pnl_ticks := match p.trade.direction with
        | .long => (primary - entry) / mkRat 1 4
        | .short => (entry - primary) / mkRat 1 4
      let pnl_dollars := pnl_ticks * mkRat 5 4 * scale_qty
      (p, { s with rm := { s.rm with
              daily_tracker := s.rm.daily_tracker.record_trade_closed
                pnl_dollars now } })

/-- `Bar` (src/core/models.py), timestamped in CT for the trading-hours
check. `open` is a Lean keyword, hence the `_price` suffixes. -/
structure Bar where
  timestamp : CTTime
  open_price : ℚ
  high_price : ℚ
  low_price : ℚ
  close_price : ℚ
  volume : ℕ := 0
deriving DecidableEq, Repr, Inhabited

/-- One position's step inside `OrderManager.on_bar`: update price and
trailing stop, then stop-out / scale-out / take-profit / keep, in that
priority order. -/
def on_bar_position (ex : PaperExecutor) (env : ExecutionEnv)
    (atr_for_trailing : ℚ) (bar : Bar) (now : ℚ) (exit_time : ℕ)
    (acc : OMState × List Position × List Trade) (p : Position) :
    OMState × List Position × List Trade :=
  let s := acc.1
  let remaining := acc.2.1
  let closed := acc.2.2
  let p := p.update_price bar.close_price
  let p := om_update_trailing atr_for_trailing p bar.close_price
  if p.should_stop_out then
    let r := close_position ex env s p p.effective_stop "stop_loss" now exit_time
    (r.2, remaining, closed ++ [r.1])
  else if should_scale_out p bar.close_price then
    let r := execute_scale_out s p now
    (r.2, remaining ++ [r.1], closed)
  else if p.should_take_profit then
    let r := close_position ex env s p (p.trade.take_profit.getD 0)
      "take_profit" now exit_time
    (r.2, remaining, closed ++ [r.1])
  else (s, remaining ++ [p], closed)

/-- `OrderManager.on_bar`: run the exit checks over every open position,
returning the closed trades and replacing the open set with the
survivors. -/
def om_on_bar (ex : PaperExecutor) (env : ExecutionEnv)
    (atr_for_trailing : ℚ) (s : OMState) (bar : Bar) (now : ℚ)
    (exit_time : ℕ) : OMState × List Trade :=
  let r := s.positions.foldl (on_bar_position ex env atr_for_trailing bar now
    exit_time) (s, [], [])
  ({ r.1 with positions := r.2.1 }, r.2.2)

/-- `OrderManager.force_close_all`. -/
def force_close_all (ex : PaperExecutor) (env : ExecutionEnv) (s : OMState)
    (current_price : ℚ) (now : ℚ) (exit_time : ℕ) : OMState × List Trade :=
  let r := s.positions.foldl
    (fun (acc : OMState × List Trade) p =>
      let c := close_position ex env acc.1 p current_price "force_close" now
        exit_time
      (c.2, acc.2 ++ [c.1]))
    (s, [])
  ({ r.1 with positions := [] }, r.2)

/-- `OrderManager.get_total_unrealized_pnl`. -/
def get_total_unrealized_pnl (s : OMState) : ℚ :=
  (s.positions.map Position.unrealized_pnl).foldl (· + ·) 0

/-! ## src/backtesting/engine.py -/

/-- The `PaperExecutor` that `BacktestEngine.run` constructs:
`slippage_ticks_mean=1.5`, `slippage_ticks_std=0.5`, default fill
probability 1.0, MES tick size and round-trip commission. -/
def backtestExecutor : PaperExecutor :=
  { slippage_mean := mkRat 3 2, slippage_std := mkRat 1 2 }

/-- The external collaborators of one backtest run (spec §6): for bar index
`n`, `gen n bar = none` models a null indicator snapshot (no signals this
bar); `some (sigs, atr)` models the signals the strategies emit on that bar
together with the snapshot ATR (`snapshot.atr_14 or 3.0`) handed to the
risk gate. -/
structure EngineEnv extends ExecutionEnv where
  gen : ℕ → Bar → Option (List Signal × ℚ)

/-- The per-run state of `BacktestEngine.run`: the Order Manager (with the
Risk Manager and the Limits Tracker inside), the accumulating
`BacktestResults` counters, and the queue of approved-but-unfilled
results. -/
structure EngineState where
  om : OMState
  trades : List Trade := []
  signals_generated : ℕ := 0
  signals_rejected : ℕ := 0
  bars_processed : ℕ := 0
  pending : List RiskResult := []
deriving Repr

/-- `SignalGenerator.on_bar`'s risk gate: evaluate each signal in order
through `RiskManager.evaluate`, collecting the results. `none` propagates an
exception out of `evaluate`. -/
def eval_signals (rm : RiskManagerState) (sigs : List Signal) (atr : ℚ)
    (t : CTTime) (now : ℚ) : Option (RiskManagerState × List RiskResult) :=
  match sigs with
  | [] => some (rm, [])
  | sig :: rest =>
    match rm.evaluate sig atr t now with
    | none => none
    | some (r, rm) =>
      match eval_signals rm rest atr t now with
      | none => none
      | some (rm, rs) => some (rm, r :: rs)

/-- Phase 1 of `BacktestEngine.run`'s loop: overwrite each pending signal's
entry price with this bar's open and hand the results to
`OrderManager.process_signals`; the pending queue is then empty. -/
def fill_phase (env : EngineEnv) (s : EngineState) (bar : Bar) : EngineState :=
  let retargeted := s.pending.map (fun rr =>
    { rr with signal := rr.signal.map (fun sg =>
        { sg with entry_price := bar.open_price }) })
  { s with om := process_signals backtestExecutor env.toExecutionEnv s.om
             retargeted s.bars_processed,
           pending := [] }

/-- Phases 2–5 and the bar counter of `BacktestEngine.run`'s loop, after the
fill phase. -/
def process_bar (env : EngineEnv) (n : ℕ) (s : EngineState) (bar : Bar) :
    Option EngineState :=
  -- Phase 1: fill pending signals from the previous bar at this bar's open
  let s := fill_phase env s bar
  -- Phase 2: exit checks against this bar
  let ob := om_on_bar backtestExecutor env.toExecutionEnv 3 s.om bar
    (env.clock s.bars_processed) s.bars_processed
  let s := { s with om := ob.1, trades := s.trades ++ ob.2 }
  -- Phases 3 and 4: indicators / regime, then signal generation + risk gate
  let gate := match env.gen n bar with
    | none => some (s.om.rm, ([] : List RiskResult))
    | some (sigs, atr) =>
      eval_signals s.om.rm sigs atr bar.timestamp (env.clock s.bars_processed)
  match gate with
  | none => none
  | some (rm, results) =>
    let s := { s with
      om := { s.om with rm := rm }
      signals_generated := s.signals_generated + results.length
      signals_rejected := s.signals_rejected +
        (results.filter (fun (r : RiskResult) => r.decision = RiskDecision.rejected)).length
      pending := results.filter (fun (r : RiskResult) => r.decision ≠ RiskDecision.rejected) }
    -- Phase 5: push total unrealized P&L into the Limits Tracker
    let tracker := s.om.rm.daily_tracker.update_unrealized
      (get_total_unrealized_pnl s.om)
    some { s with
      om := { s.om with rm := { s.om.rm with daily_tracker := tracker } }
      bars_processed := s.bars_processed + 1 }

/-- The bar loop of `BacktestEngine.run`. -/
def run_bars (env : EngineEnv) : EngineState → List Bar → ℕ →
    Option EngineState
  | s, [], _ => some s
  | s, bar :: rest, n =>
    match process_bar env n s bar with
    | none => none
    | some s => run_bars env s rest (n + 1)

/-- The fresh per-run state `BacktestEngine.run` builds: a new Risk Manager
(hence Limits Tracker) and Order Manager on `starting_equity`. The Python
code merges the caller's risk config over `RISK_DEFAULTS` and defaults
`cooldown_after_loss` to 0 for backtests; `config` here is the result of
that merge. -/
def initial_engine_state (starting_equity : ℚ) (config : RiskConfig) :
    EngineState :=
  { om := { rm := { account_equity := starting_equity, config := config,
                    daily_tracker := mkDefaultTracker starting_equity config } } }

/-- `BacktestEngine.run` (src/backtesting/engine.py): run the bar loop, then
force-close any remaining open positions at the last bar's close. `none`
models an exception escaping the loop. -/
def run (env : EngineEnv) (starting_equity : ℚ) (config : RiskConfig)
    (bars : List Bar) : Option EngineState :=
  match bars with
  | [] => some (initial_engine_state starting_equity config)
  | _ =>
    match run_bars env (initial_engine_state starting_equity config) bars 0 with
    | none => none
    | some s =>
      if s.om.positions = [] then some s
      else
        let last_close := (bars.getLastD default).close_price
        let fc := force_close_all backtestExecutor env.toExecutionEnv s.om
          last_close (env.clock s.bars_processed) s.bars_processed
        some { s with om := fc.1, trades := s.trades ++ fc.2 }

/-! ## Claim theorems -/

section Claims

/-- Helper: the signed profit of a move from `entry` to `price` in the
risk-reducing reference frame of `direction`. -/
def directed_profit (direction : Direction) (entry price : ℚ) : ℚ :=
  match direction with
  | .long => price - entry
  | .short => entry - price

/-- Helper: the distance from `entry` to `stop` in the risk direction. -/
def directed_risk (direction : Direction) (entry stop : ℚ) : ℚ :=
  match direction with
  | .long => entry - stop
  | .short => stop - entry

/-- Helper: the raw trailing-stop candidate `price ∓ atr×trailMultiple`. -/
def trail_candidate (direction : Direction) (price atr trailing_atr_multiple : ℚ) :
    ℚ :=
  match direction with
  | .long => price - atr * trailing_atr_multiple
  | .short => price + atr * trailing_atr_multiple

/-- Helper: the stop reached by folding `update_trailing_stop` over a
sequence of `(price, atr)` observations. -/
def trail_stop_seq (entry : ℚ) (direction : Direction)
    (trailing_atr_multiple activation_r_multiple tick_size stop0 : ℚ)
    (obs : List (ℚ × ℚ)) : ℚ :=
  obs.foldl
    (fun stop ob => (update_trailing_stop entry ob.1 stop direction ob.2
      trailing_atr_multiple activation_r_multiple tick_size).1)
    stop0

theorem update_trailing_stop_long_le (entry price stop atr tam arm tick : ℚ) :
    stop ≤ (update_trailing_stop entry price stop .long atr tam arm tick).1 := by
  simp only [update_trailing_stop]
  split_ifs with h1 h2 h3 h4 <;> simp <;> linarith

theorem update_trailing_stop_short_le (entry price stop atr tam arm tick : ℚ) :
    (update_trailing_stop entry price stop .short atr tam arm tick).1 ≤ stop := by
  simp only [update_trailing_stop]
  split_ifs with h1 h2 h3 h4 <;> simp <;> linarith

theorem update_trailing_stop_changed (entry price stop : ℚ) (d : Direction)
    (atr tam arm tick : ℚ)
    (h : (update_trailing_stop entry price stop d atr tam arm tick).1 ≠ stop) :
    arm * directed_risk d entry stop ≤ directed_profit d entry price ∧
    (update_trailing_stop entry price stop d atr tam arm tick).1 =
      round_to_tick (trail_candidate d price atr tam) tick := by
  simp only [update_trailing_stop] at h ⊢
  cases d <;>
    simp only [directed_risk, directed_profit, trail_candidate] <;>
    split_ifs at h ⊢ with h1 h2 h3 h4 <;>
    first
      | exact absurd rfl h
      | exact ⟨by linarith [mul_comm arm (entry - stop)], rfl⟩
      | exact ⟨by linarith [mul_comm arm (stop - entry)], rfl⟩

theorem trail_stop_seq_long_le (entry tam arm tick : ℚ) (obs : List (ℚ × ℚ)) :
    ∀ stop0, stop0 ≤ trail_stop_seq entry .long tam arm tick stop0 obs := by
  induction obs with
  | nil => intro stop0; exact le_refl _
  | cons ob rest ih =>
    intro stop0
    exact le_trans (update_trailing_stop_long_le entry ob.1 stop0 ob.2 tam arm tick)
      (ih _)

theorem trail_stop_seq_short_le (entry tam arm tick : ℚ) (obs : List (ℚ × ℚ)) :
    ∀ stop0, trail_stop_seq entry .short tam arm tick stop0 obs ≤ stop0 := by
  induction obs with
  | nil => intro stop0; exact le_refl _
  | cons ob rest ih =>
    intro stop0
    exact le_trans (ih _)
      (update_trailing_stop_short_le entry ob.1 stop0 ob.2 tam arm tick)

/-- C2: Trailing-stop one-way ratchet: every call to `update_trailing_stop`
returns a stop that never loosens (for a LONG the result is ≥ the current
stop, for a SHORT ≤); a changed stop is the tick-rounded candidate
`price ∓ atr×trailMultiple` and is adopted only when the unrealized profit
has reached `activation_r_multiple × initial risk`; consequently over any
sequence of updates the long stop is non-decreasing and the short stop
non-increasing. -/
theorem C2_trailing_stop_ratchet :
    (∀ entry price stop atr tam arm tick : ℚ,
      stop ≤ (update_trailing_stop entry price stop .long atr tam arm tick).1) ∧
    (∀ entry price stop atr tam arm tick : ℚ,
      (update_trailing_stop entry price stop .short atr tam arm tick).1 ≤ stop) ∧
    (∀ (entry price stop : ℚ) (d : Direction) (atr tam arm tick : ℚ),
      (update_trailing_stop entry price stop d atr tam arm tick).1 ≠ stop →
      arm * directed_risk d entry stop ≤ directed_profit d entry price ∧
      (update_trailing_stop entry price stop d atr tam arm tick).1 =
        round_to_tick (trail_candidate d price atr tam) tick) ∧
    (∀ (entry tam arm tick stop0 : ℚ) (pre suf : List (ℚ × ℚ)),
      trail_stop_seq entry .long tam arm tick stop0 pre ≤
        trail_stop_seq entry .long tam arm tick stop0 (pre ++ suf)) ∧
    (∀ (entry tam arm tick stop0 : ℚ) (pre suf : List (ℚ × ℚ)),
      trail_stop_seq entry .short tam arm tick stop0 (pre ++ suf) ≤
        trail_stop_seq entry .short tam arm tick stop0 pre) := by
  refine ⟨update_trailing_stop_long_le, update_trailing_stop_short_le,
    update_trailing_stop_changed, ?_, ?_⟩
  · intro entry tam arm tick stop0 pre suf
    simp only [trail_stop_seq, List.foldl_append]
    exact trail_stop_seq_long_le entry tam arm tick suf _
  · intro entry tam arm tick stop0 pre suf
    simp only [trail_stop_seq, List.foldl_append]
    exact trail_stop_seq_short_le entry tam arm tick suf _

/-- C2 witness: the ratchet at concrete inputs — a long at 5000 with stop
4997.50 and price 5005 tightens to 5000.50, never below the old stop, and
only because the 5-point profit reached the 2.5-point activation risk. -/
theorem C2_trailing_stop_ratchet_witness :
    mkRat 9995 2 ≤
      (update_trailing_stop 5000 5005 (mkRat 9995 2) .long 3 (mkRat 3 2) 1
        (mkRat 1 4)).1 ∧
    (1 * directed_risk .long 5000 (mkRat 9995 2) ≤
      directed_profit .long 5000 5005 ∧
    (update_trailing_stop 5000 5005 (mkRat 9995 2) .long 3 (mkRat 3 2) 1
        (mkRat 1 4)).1 =
      round_to_tick (trail_candidate .long 5005 3 (mkRat 3 2)) (mkRat 1 4)) :=
  ⟨C2_trailing_stop_ratchet.1 5000 5005 (mkRat 9995 2) 3 (mkRat 3 2) 1
      (mkRat 1 4),
   C2_trailing_stop_ratchet.2.2.1 5000 5005 (mkRat 9995 2) .long 3 (mkRat 3 2)
      1 (mkRat 1 4) (by decide)⟩

/-- C7: Position sizing: on positive inputs `calculate_position_size` is
`floor(equity × maxRiskPct / (stopTicks × tickValue))` clamped to
`[0, max_position_size]`, and it returns 0 — never a negative number, never
an exception (the function is total) — whenever equity, stop distance, tick
value or risk percent is ≤ 0. -/
theorem C7_position_size (e s t r : ℚ) (m : ℤ) :
    (0 < e → 0 < s → 0 < t → 0 < r →
      calculate_position_size e s t r m = max (min ⌊e * r / (s * t)⌋ m) 0) ∧
    (e ≤ 0 ∨ s ≤ 0 ∨ t ≤ 0 ∨ r ≤ 0 → calculate_position_size e s t r m = 0) ∧
    0 ≤ calculate_position_size e s t r m := by
  refine ⟨?_, ?_, ?_⟩
  · intro he hs ht hr
    simp only [calculate_position_size, ratFloor_eq_floor]
    rw [if_neg (by linarith), if_neg (by linarith), if_neg (by linarith),
      if_neg (by linarith), if_neg (not_le.mpr (by positivity)), max_comm]
  · rintro (h | h | h | h) <;>
      simp only [calculate_position_size] <;>
      split_ifs <;> first | rfl | linarith
  · simp only [calculate_position_size]
    split_ifs <;> simp

/-- C7 witness: equity 10000, 20-tick stop, MES tick value, 1.5% risk, cap 2
gives the clamped floor (= 2); zero equity gives 0; the result is ≥ 0. -/
theorem C7_position_size_witness :
    calculate_position_size 10000 20 (mkRat 5 4) (mkRat 3 200) 2 =
      max (min ⌊(10000 * mkRat 3 200 / (20 * mkRat 5 4) : ℚ)⌋ 2) 0 ∧
    calculate_position_size 0 20 (mkRat 5 4) (mkRat 3 200) 2 = 0 ∧
    0 ≤ calculate_position_size 10000 20 (mkRat 5 4) (mkRat 3 200) 2 :=
  ⟨(C7_position_size 10000 20 (mkRat 5 4) (mkRat 3 200) 2).1 (by norm_num)
      (by norm_num) (by norm_num) (by norm_num),
   (C7_position_size 0 20 (mkRat 5 4) (mkRat 3 200) 2).2.1 (Or.inl le_rfl),
   (C7_position_size 10000 20 (mkRat 5 4) (mkRat 3 200) 2).2.2⟩

theorem check_daily_limit_events_append (t : DailyLimitsTracker) :
    ∃ es, t.check_daily_limit.events = t.events ++ es := by
  unfold DailyLimitsTracker.check_daily_limit
  split_ifs <;> first | exact ⟨[], (List.append_nil _).symm⟩ | exact ⟨_, rfl⟩

theorem check_weekly_limit_events_append (t : DailyLimitsTracker) :
    ∃ es, t.check_weekly_limit.events = t.events ++ es := by
  unfold DailyLimitsTracker.check_weekly_limit
  split_ifs <;> first | exact ⟨[], (List.append_nil _).symm⟩ | exact ⟨_, rfl⟩

theorem checks_events_append (t : DailyLimitsTracker) :
    ∃ es, t.check_daily_limit.check_weekly_limit.events = t.events ++ es := by
  obtain ⟨es₁, h₁⟩ := check_daily_limit_events_append t
  obtain ⟨es₂, h₂⟩ := check_weekly_limit_events_append t.check_daily_limit
  exact ⟨es₁ ++ es₂, by rw [h₂, h₁, List.append_assoc]⟩

/-- The tracker whose daily-limit halt has just fired: equity 10,000,
default 3% limit, one closed trade of −300. -/
def trC9 : DailyLimitsTracker :=
  (mkDefaultTracker 10000 {}).record_trade_closed (-300) 0

/-- C9 counterexample: `reset_daily` does remove entries from the risk-event
list — it clears it (`self.events.clear()`), so the list is not append-only
across the tracker's operations. -/
theorem C9_counterexample :
    trC9.events = [⟨"DAILY_LIMIT", Severity.critical⟩] ∧
    trC9.reset_daily.events = [] := by decide

/-- C9 amended: `record_trade_closed` and `update_unrealized` only append to
the risk-event list, and `reset_daily` clears today's counters, unrealized
P&L, trade count, daily halt, the cooldown timer AND the risk-event list,
while leaving weekly realized P&L and the weekly halt flag unchanged
(`reset_weekly` additionally clears the weekly state). -/
theorem C9_event_log_and_daily_reset :
    (∀ (t : DailyLimitsTracker) (pnl now : ℚ),
      ∃ es, (t.record_trade_closed pnl now).events = t.events ++ es) ∧
    (∀ (t : DailyLimitsTracker) (u : ℚ),
      ∃ es, (t.update_unrealized u).events = t.events ++ es) ∧
    (∀ t : DailyLimitsTracker,
      t.reset_daily.realized_pnl_week = t.realized_pnl_week ∧
      t.reset_daily.weekly_halted = t.weekly_halted ∧
      t.reset_daily.account_equity = t.account_equity ∧
      t.reset_daily.realized_pnl_today = 0 ∧
      t.reset_daily.unrealized_pnl = 0 ∧
      t.reset_daily.trades_today = 0 ∧
      t.reset_daily.daily_halted = false ∧
      t.reset_daily.last_loss_time = none ∧
      t.reset_daily.events = []) ∧
    (∀ t : DailyLimitsTracker,
      t.reset_weekly.realized_pnl_week = 0 ∧
      t.reset_weekly.weekly_halted = false ∧
      t.reset_weekly.events = []) := by
  refine ⟨fun t pnl now => ?_, fun t u => ?_,
    fun t => ⟨rfl, rfl, rfl, rfl, rfl, rfl, rfl, rfl, rfl⟩,
    fun t => ⟨rfl, rfl, rfl⟩⟩
  · exact checks_events_append _
  · exact checks_events_append _

/-- Equity 10,000, default 3% daily limit, after a −200 trade. -/
def trC5a : DailyLimitsTracker :=
  (mkDefaultTracker 10000 {}).record_trade_closed (-200) 0

/-- … and after a further −100 trade (total −300 = the limit). -/
def trC5b : DailyLimitsTracker := trC5a.record_trade_closed (-100) 0

/-- A Risk Manager over the halted tracker `trC5b`. -/
def rmC5 : RiskManagerState :=
  { account_equity := 10000, daily_tracker := trC5b }

/-- A well-formed long signal: entry 5000, stop 4995 (20 ticks). -/
def sigC5 : Signal :=
  { strategy := "mean_reversion", direction := .long, confidence := mkRat 7 10,
    entry_price := 5000, stop_loss := some 4995 }

/-- C5: Daily-halt edge-triggering: the halt transitions exactly when
realized-today + unrealized ≤ −(equity × daily_loss_limit_pct), appending
exactly one CRITICAL event; while already halted the check is a no-op; and
with equity 10,000 and the 3% limit, −200 then −100 halts only after the
second, after which `evaluate` rejects with a reason containing "Daily loss
limit". -/
theorem C5_daily_halt_edge_trigger :
    (∀ t : DailyLimitsTracker, t.daily_halted = true → t.check_daily_limit = t) ∧
    (∀ t : DailyLimitsTracker, t.daily_halted = false →
      t.total_pnl_today ≤ -t.daily_loss_limit_dollars →
      t.check_daily_limit =
        { t with daily_halted := true,
                 events := t.events ++ [⟨"DAILY_LIMIT", Severity.critical⟩] }) ∧
    (∀ t : DailyLimitsTracker, t.daily_halted = false →
      -t.daily_loss_limit_dollars < t.total_pnl_today →
      t.check_daily_limit = t) ∧
    (trC5a.daily_halted = false ∧ trC5b.daily_halted = true ∧
      trC5b.events = [⟨"DAILY_LIMIT", Severity.critical⟩] ∧
      (rmC5.evaluate sigC5 3 ⟨0, 600⟩ 1000).map
          (fun r => (r.1.decision, r.1.reason)) =
        some (RiskDecision.rejected, "Daily loss limit reached") ∧
      ∃ pre suf, "Daily loss limit reached" = pre ++ "Daily loss limit" ++ suf) := by
  refine ⟨fun t h => ?_, fun t h hle => ?_, fun t h hgt => ?_,
    by decide, by decide, by decide, by decide, "", " reached", rfl⟩
  · unfold DailyLimitsTracker.check_daily_limit
    rw [if_pos h]
  · unfold DailyLimitsTracker.check_daily_limit
    rw [if_neg (by simp [h]), if_pos hle]
  · unfold DailyLimitsTracker.check_daily_limit
    rw [if_neg (by simp [h]), if_neg (by linarith)]

/-- C5 witness: the edge-trigger equations at the concrete trackers of the
spec's scenario — the already-halted tracker is untouched, and the −200
tracker transitions when the further −100 arrives. -/
theorem C5_daily_halt_edge_trigger_witness :
    trC5b.check_daily_limit = trC5b ∧
    trC5a.check_daily_limit = trC5a := by
  constructor
  · exact C5_daily_halt_edge_trigger.1 trC5b (by decide)
  · exact C5_daily_halt_edge_trigger.2.2.1 trC5a (by decide) (by decide)

/-- The 2-lot long of the spec's scale-out scenario: opened at 5000, stop
4997.50, primary target 5005. -/
def tradeC6 : Trade :=
  { strategy := "mean_reversion", direction := .long, entry_price := 5000,
    stop_loss := mkRat 9995 2, take_profit := some 5005, quantity := 2 }

def posC6 : Position :=
  { trade := tradeC6, current_price := 5000, original_quantity := some 2 }

/-- An Order-Manager state holding just `posC6`. -/
def omC6 : OMState :=
  { rm := { account_equity := 10000, open_positions := 1,
            daily_tracker := mkDefaultTracker 10000 {} },
    positions := [posC6] }

/-- A zeroed randomness/clock environment. -/
def envZero : ExecutionEnv := ⟨fun _ => 0, fun _ => 0, fun _ => 0⟩

/-- The bar that reaches the primary target: close 5005. -/
def barC6 : Bar := ⟨⟨0, 600⟩, 5004, 5006, 5003, 5005, 0⟩

/-- The partial P&L `_execute_scale_out` books for closing `quantity // 2`
contracts at the primary target `tp` (tick size 0.25, tick value 1.25
hardcoded in the source). -/
def scale_out_pnl (p : Position) (tp : ℚ) : ℚ :=
  (match p.trade.direction with
   | .long => (tp - p.trade.entry_price) / mkRat 1 4
   | .short => (p.trade.entry_price - tp) / mkRat 1 4) * mkRat 5 4 *
    ((p.trade.quantity / 2 : ℤ) : ℚ)

/-- C10: Every scale-out partial close is recorded through the Limits
Tracker's `record_trade_closed`, which increments the daily trade count by
one (consuming the max-daily-trades budget exactly like a full close) and,
were the partial P&L negative, would set the last-loss timestamp and start
the post-loss cooldown. -/
theorem C10_scale_out_records_trade :
    (∀ (s : OMState) (p : Position) (now tp : ℚ),
      p.trade.take_profit = some tp → 0 < p.trade.quantity / 2 →
      (execute_scale_out s p now).2.rm.daily_tracker =
        s.rm.daily_tracker.record_trade_closed (scale_out_pnl p tp) now) ∧
    (∀ (t : DailyLimitsTracker) (pnl now : ℚ),
      (t.record_trade_closed pnl now).trades_today = t.trades_today + 1) ∧
    (∀ (t : DailyLimitsTracker) (pnl now : ℚ), pnl < 0 →
      (t.record_trade_closed pnl now).last_loss_time = some now) ∧
    (∀ (t : DailyLimitsTracker) (pnl now : ℚ), pnl < 0 →
      0 < t.cooldown_seconds →
      (t.record_trade_closed pnl now).is_in_cooldown now = true) := by
  refine ⟨fun s p now tp htp hq => ?_, fun t pnl now => ?_,
    fun t pnl now h => ?_, fun t pnl now h hc => ?_⟩
  · simp only [execute_scale_out, htp, scale_out_pnl]
    rw [if_neg (not_le.mpr hq)]
  · simp only [DailyLimitsTracker.record_trade_closed,
      DailyLimitsTracker.check_daily_limit, DailyLimitsTracker.check_weekly_limit]
    split_ifs <;> rfl
  · simp only [DailyLimitsTracker.record_trade_closed,
      DailyLimitsTracker.check_daily_limit, DailyLimitsTracker.check_weekly_limit,
      if_pos h]
    split_ifs <;> rfl
  · simp only [DailyLimitsTracker.record_trade_closed,
      DailyLimitsTracker.check_daily_limit, DailyLimitsTracker.check_weekly_limit,
      DailyLimitsTracker.is_in_cooldown, if_pos h]
    split_ifs <;> simp <;> linarith

/-- C10 witness: the 2-lot long of the scale-out scenario books +25 through
`record_trade_closed`, bumping the trade count; a −10 partial P&L at time 7
would set the loss timestamp and the cooldown. -/
theorem C10_scale_out_records_trade_witness :
    (execute_scale_out omC6 posC6 0).2.rm.daily_tracker =
      omC6.rm.daily_tracker.record_trade_closed (scale_out_pnl posC6 5005) 0 ∧
    ((mkDefaultTracker 10000 {}).record_trade_closed (-10) 7).trades_today =
      (mkDefaultTracker 10000 {}).trades_today + 1 ∧
    ((mkDefaultTracker 10000 {}).record_trade_closed (-10) 7).last_loss_time =
      some 7 ∧
    ((mkDefaultTracker 10000 {}).record_trade_closed (-10) 7).is_in_cooldown 7 =
      true :=
  ⟨C10_scale_out_records_trade.1 omC6 posC6 0 5005 rfl (by decide),
   C10_scale_out_records_trade.2.1 (mkDefaultTracker 10000 {}) (-10) 7,
   C10_scale_out_records_trade.2.2.1 (mkDefaultTracker 10000 {}) (-10) 7
     (by norm_num),
   C10_scale_out_records_trade.2.2.2 (mkDefaultTracker 10000 {}) (-10) 7
     (by norm_num) (by decide)⟩

theorem update_price_trade (p : Position) (c tv : ℚ) :
    (p.update_price c tv).trade = p.trade := rfl

theorem update_price_scale_out_done (p : Position) (c tv : ℚ) :
    (p.update_price c tv).scale_out_done = p.scale_out_done := rfl

theorem om_update_trailing_trade (a : ℚ) (p : Position) (c : ℚ) :
    (om_update_trailing a p c).trade = p.trade := by
  simp only [om_update_trailing]
  split_ifs <;> rfl

theorem om_update_trailing_scale_out_done (a : ℚ) (p : Position) (c : ℚ) :
    (om_update_trailing a p c).scale_out_done = p.scale_out_done := by
  simp only [om_update_trailing]
  split_ifs <;> rfl

/-- C6: Scale-out mechanics: an open position with a primary target,
quantity > 1 and scale-out not yet done, whose bar reaches the target
without stopping out, keeps exactly one (reduced) position: `quantity //
2` contracts are closed at the target, the partial P&L is recorded directly
against the Limits Tracker (no Executor call: both random-stream positions
are untouched, and the Risk Manager's open-position count is unchanged),
the effective stop moves to breakeven (the entry price), trailing is marked
active and `scale_out_done` set, and the trade stays in its previous
status. -/
theorem C6_scale_out_mechanics (ex : PaperExecutor) (env : ExecutionEnv)
    (atrT : ℚ) (s : OMState) (bar : Bar) (now : ℚ) (etime : ℕ)
    (p : Position) (tp : ℚ)
    (hpos : s.positions = [p])
    (htp : p.trade.take_profit = some tp)
    (hq : 1 < p.trade.quantity)
    (hdone : p.scale_out_done = false)
    (hentry : p.trade.entry_price ≠ 0)
    (hns : (om_update_trailing atrT (p.update_price bar.close_price)
      bar.close_price).should_stop_out = false)
    (hreach : match p.trade.direction with
      | .long => tp ≤ bar.close_price
      | .short => bar.close_price ≤ tp) :
    (om_on_bar ex env atrT s bar now etime).2 = [] ∧
    ∃ q, (om_on_bar ex env atrT s bar now etime).1.positions = [q] ∧
      q.trade.quantity = p.trade.quantity - p.trade.quantity / 2 ∧
      q.scale_out_done = true ∧
      q.trailing_stop = some p.trade.entry_price ∧
      q.trailing_activated = true ∧
      q.effective_stop = p.trade.entry_price ∧
      q.trade.status = p.trade.status ∧
      (om_on_bar ex env atrT s bar now etime).1.gidx = s.gidx ∧
      (om_on_bar ex env atrT s bar now etime).1.uidx = s.uidx ∧
      (om_on_bar ex env atrT s bar now etime).1.rm.open_positions =
        s.rm.open_positions ∧
      (om_on_bar ex env atrT s bar now etime).1.rm.daily_tracker =
        s.rm.daily_tracker.record_trade_closed (scale_out_pnl p tp) now := by
  have hq2 : (0 : ℤ) < p.trade.quantity / 2 := by omega
  have htr : (om_update_trailing atrT (p.update_price bar.close_price)
      bar.close_price).trade = p.trade := by
    rw [om_update_trailing_trade, update_price_trade]
  have hsd : (om_update_trailing atrT (p.update_price bar.close_price)
      bar.close_price).scale_out_done = false := by
    rw [om_update_trailing_scale_out_done, update_price_scale_out_done, hdone]
  have hsc : should_scale_out (om_update_trailing atrT
      (p.update_price bar.close_price) bar.close_price) bar.close_price = true := by
    have hq' := not_le.mpr hq
    simp only [should_scale_out, get_primary_target, htr, hsd]
    rw [if_neg (by simp), if_neg hq', if_pos ⟨by simp, hq⟩, htp]
    cases hd : p.trade.direction <;> rw [hd] at hreach <;> simpa using hreach
  simp only [om_on_bar, hpos, List.foldl_cons, List.foldl_nil, on_bar_position,
    hns, Bool.false_eq_true, if_false, hsc, if_true]
  simp only [execute_scale_out, htr, htp]
  rw [if_neg (not_le.mpr hq2)]
  refine ⟨trivial, _, rfl, rfl, rfl, by simp [htr], rfl,
    by simp [Position.effective_stop, htr, hentry], rfl, rfl, rfl,
    rfl, ?_⟩
  simp only [scale_out_pnl, htr]

/-- C6 witness: the spec's concrete scenario — a 2-lot long at 5000 with
primary target 5005, on a bar closing at 5005, retains 1 lot with the
effective stop at breakeven 5000, nothing closed through the Executor. -/
theorem C6_scale_out_mechanics_witness :
    (om_on_bar backtestExecutor envZero 3 omC6 barC6 0 1).2 = [] ∧
    ∃ q, (om_on_bar backtestExecutor envZero 3 omC6 barC6 0 1).1.positions = [q] ∧
      q.trade.quantity = tradeC6.quantity - tradeC6.quantity / 2 ∧
      q.scale_out_done = true ∧
      q.trailing_stop = some tradeC6.entry_price ∧
      q.trailing_activated = true ∧
      q.effective_stop = tradeC6.entry_price ∧
      q.trade.status = tradeC6.status ∧
      (om_on_bar backtestExecutor envZero 3 omC6 barC6 0 1).1.gidx = omC6.gidx ∧
      (om_on_bar backtestExecutor envZero 3 omC6 barC6 0 1).1.uidx = omC6.uidx ∧
      (om_on_bar backtestExecutor envZero 3 omC6 barC6 0 1).1.rm.open_positions =
        omC6.rm.open_positions ∧
      (om_on_bar backtestExecutor envZero 3 omC6 barC6 0 1).1.rm.daily_tracker =
        omC6.rm.daily_tracker.record_trade_closed (scale_out_pnl posC6 5005) 0 :=
  C6_scale_out_mechanics backtestExecutor envZero 3 omC6 barC6 0 1 posC6 5005
    rfl rfl (by decide) rfl (by decide) (by decide)
    (by show (5005 : ℚ) ≤ barC6.close_price; decide)

/-- The first failing check of an ordered list of
`(passes, reject_reason, check_name)` triples. -/
def first_failure : List (Bool × String × String) → Option (String × String)
  | [] => none
  | (ok, reason, name) :: rest =>
    if ok then first_failure rest else some (reason, name)

theorem first_failure_cons_true {ok : Bool} {r n : String}
    {rest : List (Bool × String × String)} (h : ok = true) :
    first_failure ((ok, r, n) :: rest) = first_failure rest := by
  simp [first_failure, h]

theorem first_failure_cons_false {ok : Bool} {r n : String}
    {rest : List (Bool × String × String)} (h : ok = false) :
    first_failure ((ok, r, n) :: rest) = some (r, n) := by
  simp [first_failure, h]

/-- The Risk Manager's rule pipeline as an ordered list of checks, in the
fixed source order (halt/cooldown, trading hours, concurrent positions,
stop presence, stop placement, ATR distance, R:R when a take-profit is
present, sizing), each with its rejection reason and check name. -/
def evaluate_checks (st : RiskManagerState) (signal : Signal) (stop : ℚ)
    (atr : ℚ) (t : CTTime) (now : ℚ) : List (Bool × String × String) :=
  let ct := st.daily_tracker.can_trade now
  let hours := check_trading_hours st.config t
  let sv := validate_stop_placement signal.entry_price stop signal.direction
    atr st.config.max_stop_distance_atr st.spec.tick_size
  let stop_ticks := calculate_stop_distance_ticks signal.entry_price stop
    signal.direction st.spec.tick_size
  let position_size := calculate_position_size st.account_equity stop_ticks
    st.spec.tick_value st.config.max_risk_per_trade st.config.max_position_size
  [ (ct.1, ct.2, "DAILY_LIMIT_CHECK"),
    (hours.1, hours.2, "TRADING_HOURS_CHECK"),
    (!decide (st.config.max_concurrent_positions ≤ st.open_positions),
      "Max concurrent positions reached", "MAX_POSITIONS_CHECK"),
    (!decide (st.config.always_use_stop_loss ∧ signal.stop_loss = none),
      "Stop-loss is required", "STOP_REQUIRED_CHECK"),
    (sv.1, sv.2, "STOP_VALIDATION_CHECK"),
    (validate_stop_distance stop_ticks (atr / st.spec.tick_size)
        st.config.max_stop_distance_atr,
      "Stop distance exceeds ATR limit", "ATR_DISTANCE_CHECK"),
    (!(match signal.take_profit with
        | some tp => decide (calculate_risk_reward_ratio signal.entry_price
            stop tp signal.direction < st.config.min_risk_reward_ratio)
        | none => false),
      "R:R ratio below minimum", "RR_RATIO_CHECK"),
    (!decide (position_size ≤ 0),
      "Position size calculated as 0 (insufficient equity or stop too wide)",
      "POSITION_SIZE_CHECK") ]

/-- C4: Risk-rule ordering and short-circuit: for every signal carrying a
stop, `evaluate` returns REJECTED with the reason (and logged check name) of
the first failing check in the fixed order of `evaluate_checks`, without the
outcome of later checks mattering, and returns APPROVED with the computed
size exactly when every check passes. -/
theorem C4_evaluate_order_short_circuit (st : RiskManagerState)
    (signal : Signal) (atr : ℚ) (t : CTTime) (now : ℚ) (stop : ℚ)
    (h : signal.stop_loss = some stop) :
    st.evaluate signal atr t now =
      some (match first_failure (evaluate_checks st signal stop atr t now) with
        | some rn =>
          (⟨.rejected, 0, rn.1, some signal⟩,
           { st with events :=
               st.events ++ [⟨"SIGNAL_REJECTED:" ++ rn.2, .warning⟩] })
        | none =>
          (⟨.approved,
            calculate_position_size st.account_equity
              (calculate_stop_distance_ticks signal.entry_price stop
                signal.direction st.spec.tick_size)
              st.spec.tick_value st.config.max_risk_per_trade
              st.config.max_position_size,
            "All risk checks passed", some signal⟩, st)) := by
  simp only [RiskManagerState.evaluate, evaluate_checks, h,
    RiskManagerState.reject]
  cases hb1 : (st.daily_tracker.can_trade now).1 with
  | false =>
    rw [if_pos (by simp [hb1]), first_failure_cons_false rfl]
  | true =>
    rw [if_neg (by simp [hb1]), first_failure_cons_true rfl]
    cases hb2 : (check_trading_hours st.config t).1 with
    | false => rw [if_pos (by simp [hb2]), first_failure_cons_false rfl]
    | true =>
      rw [if_neg (by simp [hb2]), first_failure_cons_true rfl]
      by_cases h3 : st.config.max_concurrent_positions ≤ st.open_positions
      · rw [if_pos h3, first_failure_cons_false (by simp [h3])]
      · rw [if_neg h3, first_failure_cons_true (by simp [h3]),
          first_failure_cons_true (by simp)]
        cases hb5 : (validate_stop_placement signal.entry_price stop
            signal.direction atr st.config.max_stop_distance_atr
            st.spec.tick_size).1 with
        | false =>
          rw [if_neg (by simp [h]), if_pos (by simp [hb5]),
            first_failure_cons_false rfl]
        | true =>
          rw [if_neg (by simp [h]), if_neg (by simp [hb5]),
            first_failure_cons_true rfl]
          cases hb6 : validate_stop_distance
              (calculate_stop_distance_ticks signal.entry_price stop
                signal.direction st.spec.tick_size)
              (atr / st.spec.tick_size) st.config.max_stop_distance_atr with
          | false =>
            rw [if_pos (by simp [hb6]), first_failure_cons_false rfl]
          | true =>
            rw [if_neg (by simp [hb6]), first_failure_cons_true rfl]
            cases hb7 : (match signal.take_profit with
              | some tp => decide (calculate_risk_reward_ratio
                  signal.entry_price stop tp signal.direction <
                  st.config.min_risk_reward_ratio)
              | none => false) with
            | true =>
              rw [if_pos (by simp [hb7]), first_failure_cons_false (by simp)]
            | false =>
              rw [if_neg (by simp [hb7]), first_failure_cons_true (by simp)]
              by_cases h8 : calculate_position_size st.account_equity
                  (calculate_stop_distance_ticks signal.entry_price stop
                    signal.direction st.spec.tick_size)
                  st.spec.tick_value st.config.max_risk_per_trade
                  st.config.max_position_size ≤ 0
              · rw [if_pos h8, first_failure_cons_false (by simp [h8])]
              · rw [if_neg h8, first_failure_cons_true (by simp [h8])]
                rfl

/-- A freshly constructed Risk Manager on equity 10,000 with the default
configuration. -/
def rmC4 : RiskManagerState :=
  { account_equity := 10000, daily_tracker := mkDefaultTracker 10000 {} }

/-- C4 witness: the pipeline equation at a concrete fresh manager and the
20-tick long signal. -/
theorem C4_evaluate_order_short_circuit_witness :
    rmC4.evaluate sigC5 3 ⟨0, 600⟩ 0 =
      some (match first_failure (evaluate_checks rmC4 sigC5 4995 3 ⟨0, 600⟩ 0) with
        | some rn =>
          (⟨.rejected, 0, rn.1, some sigC5⟩,
           { rmC4 with events :=
               rmC4.events ++ [⟨"SIGNAL_REJECTED:" ++ rn.2, .warning⟩] })
        | none =>
          (⟨.approved,
            calculate_position_size rmC4.account_equity
              (calculate_stop_distance_ticks sigC5.entry_price 4995
                sigC5.direction rmC4.spec.tick_size)
              rmC4.spec.tick_value rmC4.config.max_risk_per_trade
              rmC4.config.max_position_size,
            "All risk checks passed", some sigC5⟩, rmC4)) :=
  C4_evaluate_order_short_circuit rmC4 sigC5 3 ⟨0, 600⟩ 0 4995 rfl

/-- The risk configuration a default backtest runs with: `RISK_DEFAULTS`
with the loss cooldown disabled (`cooldown_after_loss` defaulted to 0 by
`BacktestEngine.run`). -/
def cfgBT : RiskConfig := { cooldown_after_loss := 0 }

/-- Two bars: the signal bar at 5000, then a gap up whose open is 5050. -/
def barC3a : Bar := ⟨⟨0, 600⟩, 5000, 5001, 4999, 5000, 0⟩
def barC3b : Bar := ⟨⟨0, 601⟩, 5050, 5051, 5049, 5050, 0⟩

/-- A backtest environment with zero slippage draws in which the strategy
emits the 20-tick long `sigC5` (entry 5000, stop 4995, ATR 3) on bar 0. -/
def envC3 : EngineEnv :=
  { gauss := fun _ => 0, unif := fun _ => 0, clock := fun _ => 0,
    gen := fun n _ => if n = 0 then some ([sigC5], 3) else some ([], 3) }

/-- C3 counterexample: in the two-bar backtest the approved signal (sized 2
against a 20-tick stop) fills at the next bar's open 5050 while the stop
stays 4995, so the filled trade's `quantity × stop-distance-in-ticks ×
tick-value` is 550 — more than `account_equity × max_risk_per_trade` =
150. -/
theorem C3_counterexample :
    (run envC3 10000 cfgBT [barC3a, barC3b]).map
      (fun s => s.trades.map (fun t => (t.quantity : ℚ) *
        calculate_stop_distance_ticks t.entry_price t.stop_loss t.direction
          (mkRat 1 4) * mkRat 5 4)) = some [550] ∧
    ¬((550 : ℚ) ≤ 10000 * mkRat 3 200) := by decide

theorem calculate_position_size_mul_le (e s t r : ℚ) (m : ℤ)
    (h : 0 < calculate_position_size e s t r m) :
    (calculate_position_size e s t r m : ℚ) * (s * t) ≤ e * r := by
  simp only [calculate_position_size] at h ⊢
  split_ifs at h ⊢ with h1 h2 h3 h4 h5
  iterate 5 exact absurd h (by norm_num)
  have hst : 0 < s * t := not_le.mp h5
  set fl := ratFloor (e * r / (s * t)) with hfl
  have hmin : 0 < min fl m := by
    rcases le_or_lt (min fl m) 0 with hle | hlt
    · rw [max_eq_right hle] at h; exact absurd h (by norm_num)
    · exact hlt
  rw [max_eq_left hmin.le]
  have hfl' : ((min fl m : ℤ) : ℚ) ≤ e * r / (s * t) := by
    calc ((min fl m : ℤ) : ℚ) ≤ (fl : ℚ) := by exact_mod_cast min_le_left _ _
    _ ≤ e * r / (s * t) := by
        rw [hfl, ratFloor_eq_floor]; exact Int.floor_le _
  calc ((min fl m : ℤ) : ℚ) * (s * t) ≤ e * r / (s * t) * (s * t) :=
        mul_le_mul_of_nonneg_right hfl' hst.le
  _ = e * r := div_mul_cancel₀ _ (ne_of_gt hst)

/-- C3 amended: the risk bound holds at approval time — for every APPROVED
result, the computed size times the stop distance in ticks measured from the
approved signal's entry price times the tick value is at most
`account_equity × max_risk_per_trade`. (As `C3_counterexample` shows, the
bound measured from the actual next-bar fill price can be exceeded when the
fill bar opens away from the signal price with the stop unchanged.) -/
theorem C3_sizing_bound_at_approval (st : RiskManagerState) (signal : Signal)
    (atr : ℚ) (t : CTTime) (now : ℚ) (rr : RiskResult)
    (st' : RiskManagerState) (stop : ℚ)
    (h : st.evaluate signal atr t now = some (rr, st'))
    (happ : rr.decision = RiskDecision.approved)
    (hs : signal.stop_loss = some stop) :
    (rr.position_size : ℚ) *
      calculate_stop_distance_ticks signal.entry_price stop signal.direction
        st.spec.tick_size * st.spec.tick_value ≤
      st.account_equity * st.config.max_risk_per_trade := by
  simp only [RiskManagerState.evaluate, hs, RiskManagerState.reject] at h
  split_ifs at h with h1 h2 h3 h4 h5 h6 h7 h8
  all_goals simp only [Option.some.injEq, Prod.mk.injEq] at h
  all_goals rw [← h.1] at happ ⊢
  all_goals simp only [reduceCtorEq] at happ
  rw [mul_assoc]
  exact calculate_position_size_mul_le _ _ _ _ _ (lt_of_not_le h8)

/-- C3 amended witness: the fresh manager approves the 20-tick long at size
2, and 2 × 20 ticks × 1.25 = 50 ≤ 150 = 10000 × 1.5%. -/
theorem C3_sizing_bound_at_approval_witness :
    ((2 : ℤ) : ℚ) *
      calculate_stop_distance_ticks sigC5.entry_price 4995 sigC5.direction
        rmC4.spec.tick_size * rmC4.spec.tick_value ≤
      rmC4.account_equity * rmC4.config.max_risk_per_trade :=
  C3_sizing_bound_at_approval rmC4 sigC5 3 ⟨0, 600⟩ 0
    ⟨.approved, 2, "All risk checks passed", some sigC5⟩ rmC4 4995
    (by decide) rfl rfl

theorem calculate_pnl_status (t : Trade) (tv : ℚ) :
    (t.calculate_pnl tv).status = t.status := by
  cases h : t.exit_price <;> simp [Trade.calculate_pnl, h]

theorem calculate_pnl_notes (t : Trade) (tv : ℚ) :
    (t.calculate_pnl tv).notes = t.notes := by
  cases h : t.exit_price <;> simp [Trade.calculate_pnl, h]

theorem calculate_pnl_exit_price (t : Trade) (tv : ℚ) :
    (t.calculate_pnl tv).exit_price = t.exit_price := by
  cases h : t.exit_price <;> simp [Trade.calculate_pnl, h]

theorem calculate_pnl_direction (t : Trade) (tv : ℚ) :
    (t.calculate_pnl tv).direction = t.direction := by
  cases h : t.exit_price <;> simp [Trade.calculate_pnl, h]

theorem calculate_risk_reward_status (t : Trade) :
    t.calculate_risk_reward.status = t.status := by
  cases h : t.exit_price <;> simp only [Trade.calculate_risk_reward, h] <;>
    try split_ifs
  all_goals simp_all

theorem calculate_risk_reward_notes (t : Trade) :
    t.calculate_risk_reward.notes = t.notes := by
  cases h : t.exit_price <;> simp only [Trade.calculate_risk_reward, h] <;>
    try split_ifs
  all_goals simp_all

theorem calculate_risk_reward_exit_price (t : Trade) :
    t.calculate_risk_reward.exit_price = t.exit_price := by
  cases h : t.exit_price <;> simp only [Trade.calculate_risk_reward, h] <;>
    try split_ifs
  all_goals simp_all

theorem calculate_risk_reward_direction (t : Trade) :
    t.calculate_risk_reward.direction = t.direction := by
  cases h : t.exit_price <;> simp only [Trade.calculate_risk_reward, h] <;>
    try split_ifs
  all_goals simp_all

theorem exec_exit_status (ex : PaperExecutor) (env : ExecutionEnv)
    (s : OMState) (p : Position) (price : ℚ) (reason : String) (et : ℕ) :
    (exec_exit ex env s p price reason et).1.status = .closed := by
  unfold exec_exit
  rw [calculate_risk_reward_status, calculate_pnl_status]

theorem exec_exit_notes (ex : PaperExecutor) (env : ExecutionEnv)
    (s : OMState) (p : Position) (price : ℚ) (reason : String) (et : ℕ) :
    (exec_exit ex env s p price reason et).1.notes = reason := by
  unfold exec_exit
  rw [calculate_risk_reward_notes, calculate_pnl_notes]

theorem exec_exit_direction (ex : PaperExecutor) (env : ExecutionEnv)
    (s : OMState) (p : Position) (price : ℚ) (reason : String) (et : ℕ) :
    (exec_exit ex env s p price reason et).1.direction = p.trade.direction := by
  unfold exec_exit
  rw [calculate_risk_reward_direction, calculate_pnl_direction]

/-- The exit fill `execute_exit` stamps: the requested exit price with
adverse slippage from the gauss draw at the stream position. -/
theorem exec_exit_exit_price (ex : PaperExecutor) (env : ExecutionEnv)
    (s : OMState) (p : Position) (price : ℚ) (reason : String) (et : ℕ) :
    (exec_exit ex env s p price reason et).1.exit_price =
      some (ex.apply_slippage price p.trade.direction false
        (env.gauss s.gidx)) := by
  unfold exec_exit
  rw [calculate_risk_reward_exit_price, calculate_pnl_exit_price]

theorem close_position_trade_status (ex : PaperExecutor) (env : ExecutionEnv)
    (s : OMState) (p : Position) (price : ℚ) (reason : String) (now : ℚ)
    (et : ℕ) :
    (close_position ex env s p price reason now et).1.status = .closed := by
  simp only [close_position]
  exact exec_exit_status ex env s p price reason et

theorem close_position_trade_notes (ex : PaperExecutor) (env : ExecutionEnv)
    (s : OMState) (p : Position) (price : ℚ) (reason : String) (now : ℚ)
    (et : ℕ) :
    (close_position ex env s p price reason now et).1.notes = reason := by
  simp only [close_position]
  exact exec_exit_notes ex env s p price reason et

theorem close_position_trade_direction (ex : PaperExecutor)
    (env : ExecutionEnv) (s : OMState) (p : Position) (price : ℚ)
    (reason : String) (now : ℚ) (et : ℕ) :
    (close_position ex env s p price reason now et).1.direction =
      p.trade.direction := by
  simp only [close_position]
  exact exec_exit_direction ex env s p price reason et

theorem close_position_trade_exit_price (ex : PaperExecutor)
    (env : ExecutionEnv) (s : OMState) (p : Position) (price : ℚ)
    (reason : String) (now : ℚ) (et : ℕ) :
    (close_position ex env s p price reason now et).1.exit_price =
      some (ex.apply_slippage price p.trade.direction false
        (env.gauss s.gidx)) := by
  simp only [close_position]
  exact exec_exit_exit_price ex env s p price reason et

theorem close_position_positions (ex : PaperExecutor) (env : ExecutionEnv)
    (s : OMState) (p : Position) (price : ℚ) (reason : String) (now : ℚ)
    (et : ℕ) :
    (close_position ex env s p price reason now et).2.positions =
      s.positions := rfl

theorem execute_scale_out_status (s : OMState) (p : Position) (now : ℚ) :
    (execute_scale_out s p now).1.trade.status = p.trade.status := by
  cases h : p.trade.take_profit <;> simp only [execute_scale_out, h] <;>
    try split_ifs
  all_goals rfl

theorem on_bar_fold_closed (ex : PaperExecutor) (env : ExecutionEnv)
    (atrT : ℚ) (bar : Bar) (now : ℚ) (et : ℕ) (ps : List Position) :
    ∀ acc : OMState × List Position × List Trade,
      (∀ t ∈ acc.2.2, t.status = TradeStatus.closed) →
      ∀ t ∈ (ps.foldl (on_bar_position ex env atrT bar now et) acc).2.2,
        t.status = TradeStatus.closed := by
  induction ps with
  | nil => intro acc hacc t ht; exact hacc t ht
  | cons p rest ih =>
    intro acc hacc
    rw [List.foldl_cons]
    apply ih
    simp only [on_bar_position]
    split_ifs with h1 h2 h3
    · intro t ht
      rcases List.mem_append.mp ht with h | h
      · exact hacc t h
      · rw [List.mem_singleton.mp h]
        exact close_position_trade_status ex env acc.1 _ _ _ now et
    · exact hacc
    · intro t ht
      rcases List.mem_append.mp ht with h | h
      · exact hacc t h
      · rw [List.mem_singleton.mp h]
        exact close_position_trade_status ex env acc.1 _ _ _ now et
    · exact hacc

theorem on_bar_fold_opened (ex : PaperExecutor) (env : ExecutionEnv)
    (atrT : ℚ) (bar : Bar) (now : ℚ) (et : ℕ) (ps : List Position) :
    ∀ acc : OMState × List Position × List Trade,
      (∀ p ∈ acc.2.1, p.trade.status = TradeStatus.opened) →
      (∀ p ∈ ps, p.trade.status = TradeStatus.opened) →
      ∀ q ∈ (ps.foldl (on_bar_position ex env atrT bar now et) acc).2.1,
        q.trade.status = TradeStatus.opened := by
  induction ps with
  | nil => intro acc hacc _ q hq; exact hacc q hq
  | cons p rest ih =>
    intro acc hacc hps
    rw [List.foldl_cons]
    apply ih
    · have hp : p.trade.status = TradeStatus.opened :=
        hps p (List.mem_cons_self p rest)
      simp only [on_bar_position]
      split_ifs with h1 h2 h3
      · exact hacc
      · intro q hq
        rcases List.mem_append.mp hq with h | h
        · exact hacc q h
        · rw [List.mem_singleton.mp h, execute_scale_out_status,
            om_update_trailing_trade, update_price_trade]
          exact hp
      · exact hacc
      · intro q hq
        rcases List.mem_append.mp hq with h | h
        · exact hacc q h
        · rw [List.mem_singleton.mp h, om_update_trailing_trade,
            update_price_trade]
          exact hp
    · intro q hq
      exact hps q (List.mem_cons_of_mem p hq)

theorem om_on_bar_closed (ex : PaperExecutor) (env : ExecutionEnv) (atrT : ℚ)
    (s : OMState) (bar : Bar) (now : ℚ) (et : ℕ) :
    ∀ t ∈ (om_on_bar ex env atrT s bar now et).2,
      t.status = TradeStatus.closed := by
  unfold om_on_bar
  exact on_bar_fold_closed ex env atrT bar now et s.positions (s, [], [])
    (by simp)

theorem om_on_bar_opened (ex : PaperExecutor) (env : ExecutionEnv) (atrT : ℚ)
    (s : OMState) (bar : Bar) (now : ℚ) (et : ℕ)
    (hs : ∀ p ∈ s.positions, p.trade.status = TradeStatus.opened) :
    ∀ q ∈ (om_on_bar ex env atrT s bar now et).1.positions,
      q.trade.status = TradeStatus.opened := by
  unfold om_on_bar
  exact on_bar_fold_opened ex env atrT bar now et s.positions (s, [], [])
    (by simp) hs

theorem force_close_all_positions (ex : PaperExecutor) (env : ExecutionEnv)
    (s : OMState) (price now : ℚ) (et : ℕ) :
    (force_close_all ex env s price now et).1.positions = [] := rfl

theorem force_close_all_trades (ex : PaperExecutor) (env : ExecutionEnv)
    (s : OMState) (price now : ℚ) (et : ℕ) :
    ∀ t ∈ (force_close_all ex env s price now et).2,
      t.status = TradeStatus.closed ∧ t.notes = "force_close" ∧
      ∃ d, t.exit_price =
        some (ex.apply_slippage price t.direction false d) := by
  unfold force_close_all
  suffices h : ∀ (ps : List Position) (acc : OMState × List Trade),
      (∀ t ∈ acc.2, t.status = TradeStatus.closed ∧ t.notes = "force_close" ∧
        ∃ d, t.exit_price = some (ex.apply_slippage price t.direction false d)) →
      ∀ t ∈ (ps.foldl
        (fun (acc : OMState × List Trade) p =>
          let c := close_position ex env acc.1 p price "force_close" now et
          (c.2, acc.2 ++ [c.1])) acc).2,
        t.status = TradeStatus.closed ∧ t.notes = "force_close" ∧
        ∃ d, t.exit_price =
          some (ex.apply_slippage price t.direction false d) by
    intro t ht
    exact h s.positions (s, []) (by simp) t ht
  intro ps
  induction ps with
  | nil => intro acc hacc t ht; exact hacc t ht
  | cons p rest ih =>
    intro acc hacc
    rw [List.foldl_cons]
    apply ih
    intro t ht
    rcases List.mem_append.mp ht with h | h
    · exact hacc t h
    · rw [List.mem_singleton.mp h]
      refine ⟨close_position_trade_status ex env acc.1 p price _ now et,
        close_position_trade_notes ex env acc.1 p price _ now et,
        env.gauss acc.1.gidx, ?_⟩
      rw [close_position_trade_exit_price,
        close_position_trade_direction]

theorem exec_entry_positions (ex : PaperExecutor) (env : ExecutionEnv)
    (s : OMState) (rr : RiskResult) (et : ℕ) :
    (exec_entry ex env s rr et).2.positions = s.positions := by
  cases hs : rr.signal with
  | none => simp only [exec_entry, hs]
  | some sig =>
    simp only [exec_entry, hs]
    split_ifs <;> first | rfl | (cases sig.stop_loss <;> rfl)

theorem exec_entry_status (ex : PaperExecutor) (env : ExecutionEnv)
    (s : OMState) (rr : RiskResult) (et : ℕ) (tr : Trade)
    (h : (exec_entry ex env s rr et).1 = some tr) :
    tr.status = TradeStatus.opened := by
  cases hs : rr.signal with
  | none => simp only [exec_entry, hs] at h; simp at h
  | some sig =>
    simp only [exec_entry, hs] at h
    split_ifs at h
    all_goals try simp at h
    all_goals cases hsl : sig.stop_loss
    all_goals rw [hsl] at h
    all_goals dsimp only at h
    all_goals try simp at h
    all_goals rw [← h]

theorem open_position_positions_mem (ex : PaperExecutor) (env : ExecutionEnv)
    (s : OMState) (rr : RiskResult) (et : ℕ) :
    ∀ q ∈ (open_position ex env s rr et).2.positions,
      q ∈ s.positions ∨ q.trade.status = TradeStatus.opened := by
  intro q hq
  simp only [open_position] at hq
  cases h : (exec_entry ex env s rr et).1 with
  | none =>
    rw [h] at hq
    rw [exec_entry_positions] at hq
    exact Or.inl hq
  | some tr =>
    rw [h] at hq
    dsimp only at hq
    rw [exec_entry_positions, List.mem_append] at hq
    rcases hq with hq | hq
    · exact Or.inl hq
    · right
      rw [List.mem_singleton.mp hq]
      exact exec_entry_status ex env s rr et tr h

theorem process_signals_opened (ex : PaperExecutor) (env : ExecutionEnv) :
    ∀ (rrs : List RiskResult) (s : OMState) (et : ℕ),
      (∀ p ∈ s.positions, p.trade.status = TradeStatus.opened) →
      ∀ p ∈ (process_signals ex env s rrs et).positions,
        p.trade.status = TradeStatus.opened := by
  intro rrs
  induction rrs with
  | nil => intro s et hs; exact hs
  | cons rr rest ih =>
    intro s et hs
    have hstep : process_signals ex env s (rr :: rest) et =
        process_signals ex env
          (if rr.decision ≠ RiskDecision.approved then s
           else (open_position ex env s rr et).2) rest et := rfl
    rw [hstep]
    apply ih
    split_ifs with hd
    · exact hs
    · intro p hp
      rcases open_position_positions_mem ex env s rr et p hp with h | h
      · exact hs p h
      · exact h

/-- The two-part engine invariant: the result trade list holds only CLOSED
trades, the Order Manager's open set only OPEN trades. -/
def engine_inv (s : EngineState) : Prop :=
  (∀ t ∈ s.trades, t.status = TradeStatus.closed) ∧
  (∀ p ∈ s.om.positions, p.trade.status = TradeStatus.opened)

theorem fill_phase_inv (env : EngineEnv) (s : EngineState) (bar : Bar)
    (h : engine_inv s) : engine_inv (fill_phase env s bar) := by
  refine ⟨h.1, ?_⟩
  exact process_signals_opened backtestExecutor env.toExecutionEnv _ s.om
    s.bars_processed h.2

theorem process_bar_inv (env : EngineEnv) (n : ℕ) (s : EngineState)
    (bar : Bar) (s' : EngineState) (h : process_bar env n s bar = some s')
    (hinv : engine_inv s) : engine_inv s' := by
  have h1 := fill_phase_inv env s bar hinv
  have hcl := om_on_bar_closed backtestExecutor env.toExecutionEnv 3
    (fill_phase env s bar).om bar
    (env.clock (fill_phase env s bar).bars_processed)
    (fill_phase env s bar).bars_processed
  have hop := om_on_bar_opened backtestExecutor env.toExecutionEnv 3
    (fill_phase env s bar).om bar
    (env.clock (fill_phase env s bar).bars_processed)
    (fill_phase env s bar).bars_processed h1.2
  simp only [process_bar] at h
  cases hg : env.gen n bar with
  | none =>
    rw [hg] at h
    dsimp only at h
    simp only [Option.some.injEq] at h
    rw [← h]
    refine ⟨?_, ?_⟩
    · intro t ht
      simp only [List.mem_append] at ht
      rcases ht with ht | ht
      · exact h1.1 t ht
      · exact hcl t ht
    · intro p hp
      exact hop p hp
  | some pr =>
    obtain ⟨sigs, atr⟩ := pr
    rw [hg] at h
    dsimp only at h
    cases he : eval_signals
        (om_on_bar backtestExecutor env.toExecutionEnv 3
          (fill_phase env s bar).om bar
          (env.clock (fill_phase env s bar).bars_processed)
          (fill_phase env s bar).bars_processed).1.rm
        sigs atr bar.timestamp
        (env.clock (fill_phase env s bar).bars_processed) with
    | none => rw [he] at h; exact absurd h (by simp)
    | some rmres =>
      obtain ⟨rm, results⟩ := rmres
      rw [he] at h
      dsimp only at h
      simp only [Option.some.injEq] at h
      rw [← h]
      refine ⟨?_, ?_⟩
      · intro t ht
        simp only [List.mem_append] at ht
        rcases ht with ht | ht
        · exact h1.1 t ht
        · exact hcl t ht
      · intro p hp
        exact hop p hp

theorem run_bars_inv (env : EngineEnv) :
    ∀ (bars : List Bar) (s : EngineState) (n : ℕ) (s' : EngineState),
      run_bars env s bars n = some s' → engine_inv s → engine_inv s' := by
  intro bars
  induction bars with
  | nil =>
    intro s n s' h hinv
    simp only [run_bars, Option.some.injEq] at h
    rw [← h]; exact hinv
  | cons bar rest ih =>
    intro s n s' h hinv
    simp only [run_bars] at h
    cases hp : process_bar env n s bar with
    | none => rw [hp] at h; exact absurd h (by simp)
    | some s1 =>
      rw [hp] at h
      exact ih s1 (n + 1) s' h (process_bar_inv env n s bar s1 hp hinv)

theorem run_closed (env : EngineEnv) (eq : ℚ) (cfg : RiskConfig)
    (bars : List Bar) (res : EngineState)
    (h : run env eq cfg bars = some res) :
    res.om.positions = [] ∧ ∀ t ∈ res.trades, t.status = TradeStatus.closed := by
  cases bars with
  | nil =>
    simp only [run, Option.some.injEq] at h
    rw [← h]
    exact ⟨rfl, by simp [initial_engine_state]⟩
  | cons bar rest =>
    simp only [run] at h
    cases hr : run_bars env (initial_engine_state eq cfg) (bar :: rest) 0 with
    | none => rw [hr] at h; exact absurd h (by simp)
    | some s =>
      rw [hr] at h
      dsimp only at h
      have hinv : engine_inv s := run_bars_inv env (bar :: rest)
        (initial_engine_state eq cfg) 0 s hr
        ⟨by simp [initial_engine_state], by simp [initial_engine_state]⟩
      split_ifs at h with hemp
      · simp only [Option.some.injEq] at h
        rw [← h]
        exact ⟨hemp, hinv.1⟩
      · simp only [Option.some.injEq] at h
        rw [← h]
        refine ⟨force_close_all_positions _ _ _ _ _ _, ?_⟩
        intro t ht
        simp only [List.mem_append] at ht
        rcases ht with ht | ht
        · exact hinv.1 t ht
        · exact (force_close_all_trades backtestExecutor env.toExecutionEnv
            s.om _ _ _ t ht).1

/-- C8: Closed-trade invariant and force-close: every trade `on_bar` or
`force_close_all` reports is CLOSED; `force_close_all` empties the open set
and exits every position at the single given price (with adverse slippage,
reason `force_close`); `on_bar` and `process_signals` never leave a
position with a CLOSED trade in the open set; and a completed backtest run
ends with no open positions and only CLOSED trades in its result list. -/
theorem C8_closed_trade_invariant :
    (∀ (ex : PaperExecutor) (env : ExecutionEnv) (atrT : ℚ) (s : OMState)
      (bar : Bar) (now : ℚ) (et : ℕ),
      ∀ t ∈ (om_on_bar ex env atrT s bar now et).2,
        t.status = TradeStatus.closed) ∧
    (∀ (ex : PaperExecutor) (env : ExecutionEnv) (s : OMState)
      (price now : ℚ) (et : ℕ),
      (force_close_all ex env s price now et).1.positions = [] ∧
      ∀ t ∈ (force_close_all ex env s price now et).2,
        t.status = TradeStatus.closed ∧ t.notes = "force_close" ∧
        ∃ d, t.exit_price =
          some (ex.apply_slippage price t.direction false d)) ∧
    (∀ (ex : PaperExecutor) (env : ExecutionEnv) (atrT : ℚ) (s : OMState)
      (bar : Bar) (now : ℚ) (et : ℕ),
      (∀ p ∈ s.positions, p.trade.status = TradeStatus.opened) →
      ∀ q ∈ (om_on_bar ex env atrT s bar now et).1.positions,
        q.trade.status = TradeStatus.opened) ∧
    (∀ (ex : PaperExecutor) (env : ExecutionEnv) (s : OMState)
      (rrs : List RiskResult) (et : ℕ),
      (∀ p ∈ s.positions, p.trade.status = TradeStatus.opened) →
      ∀ p ∈ (process_signals ex env s rrs et).positions,
        p.trade.status = TradeStatus.opened) ∧
    (∀ (env : EngineEnv) (eq : ℚ) (cfg : RiskConfig) (bars : List Bar)
      (res : EngineState), run env eq cfg bars = some res →
      res.om.positions = [] ∧
      ∀ t ∈ res.trades, t.status = TradeStatus.closed) :=
  ⟨om_on_bar_closed,
   fun ex env s price now et =>
     ⟨force_close_all_positions ex env s price now et,
      force_close_all_trades ex env s price now et⟩,
   om_on_bar_opened,
   fun ex env s rrs et h => process_signals_opened ex env rrs s et h,
   run_closed⟩

/-- C8 witness: the concrete two-bar backtest of `envC3` ends with no open
positions and a trade list of CLOSED trades. -/
theorem C8_closed_trade_invariant_witness :
    ∃ res, run envC3 10000 cfgBT [barC3a, barC3b] = some res ∧
      res.om.positions = [] ∧
      ∀ t ∈ res.trades, t.status = TradeStatus.closed := by
  obtain ⟨res, hres⟩ : ∃ res,
      run envC3 10000 cfgBT [barC3a, barC3b] = some res := ⟨_, rfl⟩
  obtain ⟨h1, h2⟩ := C8_closed_trade_invariant.2.2.2.2 envC3 10000 cfgBT
    [barC3a, barC3b] res hres
  exact ⟨res, hres, h1, h2⟩

/-- What an executed entry looks like: the trade `execute_entry` returns
carries the slipped fill of the *signal's* entry price (gauss draw at the
stream position), the approved size, the signal's stop, and OPEN status. -/
theorem exec_entry_some_char (ex : PaperExecutor) (env : ExecutionEnv)
    (s : OMState) (rr : RiskResult) (et : ℕ) (tr : Trade)
    (h : (exec_entry ex env s rr et).1 = some tr) :
    ∃ sig, rr.signal = some sig ∧ ∃ st, sig.stop_loss = some st ∧
      tr.entry_price = ex.apply_slippage sig.entry_price sig.direction true
        (env.gauss s.gidx) ∧
      tr.quantity = rr.position_size ∧ tr.stop_loss = st ∧
      tr.direction = sig.direction ∧ tr.status = TradeStatus.opened := by
  cases hs : rr.signal with
  | none => simp only [exec_entry, hs] at h; simp at h
  | some sig =>
    refine ⟨sig, rfl, ?_⟩
    simp only [exec_entry, hs] at h
    split_ifs at h
    all_goals try simp at h
    all_goals cases hsl : sig.stop_loss
    all_goals rw [hsl] at h
    all_goals dsimp only at h
    all_goals try simp at h
    all_goals rw [← h]
    all_goals exact ⟨_, rfl, rfl, rfl, rfl, rfl, rfl⟩

theorem open_position_new (ex : PaperExecutor) (env : ExecutionEnv)
    (s : OMState) (rr : RiskResult) (et : ℕ) :
    (open_position ex env s rr et).2.positions = s.positions ∨
    ∃ q, (open_position ex env s rr et).2.positions = s.positions ++ [q] ∧
      ∃ sig, rr.signal = some sig ∧ ∃ st, sig.stop_loss = some st ∧
        q.trade.entry_price = ex.apply_slippage sig.entry_price sig.direction
          true (env.gauss s.gidx) ∧
        q.trade.quantity = rr.position_size ∧ q.trade.stop_loss = st ∧
        q.trade.direction = sig.direction ∧
        q.trade.status = TradeStatus.opened := by
  simp only [open_position]
  cases h : (exec_entry ex env s rr et).1 with
  | none => left; exact exec_entry_positions ex env s rr et
  | some tr =>
    right
    obtain ⟨sig, hsig, st, hst, he, hq, hsl, hd, hop⟩ :=
      exec_entry_some_char ex env s rr et tr h
    exact ⟨⟨tr, tr.entry_price, 0, none, false, false, some tr.quantity⟩,
      by rw [exec_entry_positions],
      sig, hsig, st, hst, he, hq, hsl, hd, hop⟩

theorem process_signals_new (ex : PaperExecutor) (env : ExecutionEnv) :
    ∀ (rrs : List RiskResult) (s : OMState) (et : ℕ),
      ∃ new, (process_signals ex env s rrs et).positions =
        s.positions ++ new ∧
      ∀ q ∈ new, ∃ rr ∈ rrs, rr.decision = RiskDecision.approved ∧
        ∃ sig, rr.signal = some sig ∧ ∃ k st, sig.stop_loss = some st ∧
          q.trade.entry_price = ex.apply_slippage sig.entry_price
            sig.direction true (env.gauss k) ∧
          q.trade.quantity = rr.position_size ∧ q.trade.stop_loss = st ∧
          q.trade.direction = sig.direction ∧
          q.trade.status = TradeStatus.opened := by
  intro rrs
  induction rrs with
  | nil => intro s et; exact ⟨[], by simp [process_signals], by simp⟩
  | cons rr rest ih =>
    intro s et
    have hstep : process_signals ex env s (rr :: rest) et =
        process_signals ex env
          (if rr.decision ≠ RiskDecision.approved then s
           else (open_position ex env s rr et).2) rest et := rfl
    rw [hstep]
    split_ifs with hd
    · obtain ⟨new, hpos, hprop⟩ := ih s et
      refine ⟨new, hpos, fun q hq => ?_⟩
      obtain ⟨rr', hmem, hrest⟩ := hprop q hq
      exact ⟨rr', List.mem_cons_of_mem rr hmem, hrest⟩
    · rcases open_position_new ex env s rr et with hsame | ⟨q, hpos, hq⟩
      · obtain ⟨new, hpos', hprop⟩ := ih (open_position ex env s rr et).2 et
        refine ⟨new, by rw [hpos', hsame], fun q hq => ?_⟩
        obtain ⟨rr', hmem, hrest⟩ := hprop q hq
        exact ⟨rr', List.mem_cons_of_mem rr hmem, hrest⟩
      · obtain ⟨new, hpos', hprop⟩ := ih (open_position ex env s rr et).2 et
        refine ⟨q :: new, by rw [hpos', hpos]; simp, fun q' hq' => ?_⟩
        rcases List.mem_cons.mp hq' with rfl | hq'
        · obtain ⟨sig, hsig, st, hrest⟩ := hq
          exact ⟨rr, List.mem_cons_self rr rest, not_not.mp hd,
            sig, hsig, s.gidx, st, hrest⟩
        · obtain ⟨rr', hmem, hrest⟩ := hprop q' hq'
          exact ⟨rr', List.mem_cons_of_mem rr hmem, hrest⟩

/-- The fill phase: every position it opens is priced off *this bar's open*
(plus adverse slippage) and stems from an approved result queued from the
previous bar's signal phase; the queue is emptied. -/
theorem fill_phase_new (env : EngineEnv) (s : EngineState) (bar : Bar) :
    (fill_phase env s bar).pending = [] ∧
    ∃ new, (fill_phase env s bar).om.positions = s.om.positions ++ new ∧
      ∀ q ∈ new, ∃ rr ∈ s.pending, rr.decision = RiskDecision.approved ∧
        q.trade.quantity = rr.position_size ∧
        ∃ sig, rr.signal = some sig ∧ ∃ k,
          q.trade.entry_price = backtestExecutor.apply_slippage bar.open_price
            sig.direction true (env.gauss k) ∧
          sig.stop_loss = some q.trade.stop_loss ∧
          q.trade.direction = sig.direction ∧
          q.trade.status = TradeStatus.opened := by
  refine ⟨rfl, ?_⟩
  obtain ⟨new, hpos, hprop⟩ := process_signals_new backtestExecutor
    env.toExecutionEnv
    (s.pending.map (fun rr =>
      { rr with signal := rr.signal.map (fun sg =>
          { sg with entry_price := bar.open_price }) }))
    s.om s.bars_processed
  refine ⟨new, hpos, fun q hq => ?_⟩
  obtain ⟨rr', hmem, hdec, sig', hsig', k, st, hst, he, hqty, hsl, hdir, hop⟩ :=
    hprop q hq
  obtain ⟨rr, hrr, hret⟩ := List.mem_map.mp hmem
  obtain ⟨sig, hsig⟩ : ∃ sig, rr.signal = some sig := by
    rcases h' : rr.signal with _ | sig
    · rw [← hret] at hsig'; simp [h'] at hsig'
    · exact ⟨sig, rfl⟩
  have hsig'eq : sig' = { sig with entry_price := bar.open_price } := by
    rw [← hret] at hsig'
    simp only [hsig, Option.map_some] at hsig'
    exact (Option.some.injEq _ _ ▸ hsig').symm
  refine ⟨rr, hrr, ?_, ?_, sig, hsig, k, ?_, ?_, ?_, hop⟩
  · rw [← hret] at hdec; exact hdec
  · rw [← hret] at hqty; exact hqty
  · rw [he, hsig'eq]
  · rw [hsig'eq] at hst
    dsimp only at hst
    rw [hsl]
    exact hst
  · rw [hdir, hsig'eq]

set_option maxHeartbeats 1000000 in
/-- `evaluate` mutates nothing but the Risk Manager's event log. -/
theorem evaluate_frame (st : RiskManagerState) (signal : Signal) (atr : ℚ)
    (t : CTTime) (now : ℚ) (r : RiskResult) (st' : RiskManagerState)
    (h : st.evaluate signal atr t now = some (r, st')) :
    st'.daily_tracker = st.daily_tracker ∧
    st'.open_positions = st.open_positions ∧
    st'.account_equity = st.account_equity ∧
    st'.config = st.config ∧ st'.spec = st.spec := by
  simp only [RiskManagerState.evaluate, RiskManagerState.reject] at h
  cases hsl : signal.stop_loss with
  | none =>
    rw [hsl] at h
    split_ifs at h with h1 h2 h3 h4
    all_goals injection h with h
    all_goals have hsnd := congrArg Prod.snd h
    all_goals dsimp only at hsnd
    all_goals rw [← hsnd]
    all_goals exact ⟨rfl, rfl, rfl, rfl, rfl⟩
  | some stop =>
    rw [hsl] at h
    dsimp only at h
    split_ifs at h with h1 h2 h3 h4 h5 h6 h7 h8
    all_goals injection h with h
    all_goals have hsnd := congrArg Prod.snd h
    all_goals dsimp only at hsnd
    all_goals rw [← hsnd]
    all_goals exact ⟨rfl, rfl, rfl, rfl, rfl⟩

/-- `eval_signals` mutates nothing but the Risk Manager's event log. -/
theorem eval_signals_frame :
    ∀ (sigs : List Signal) (rm : RiskManagerState) (atr : ℚ) (t : CTTime)
      (now : ℚ) (rm' : RiskManagerState) (results : List RiskResult),
      eval_signals rm sigs atr t now = some (rm', results) →
      rm'.daily_tracker = rm.daily_tracker ∧
      rm'.open_positions = rm.open_positions ∧
      rm'.account_equity = rm.account_equity ∧
      rm'.config = rm.config ∧ rm'.spec = rm.spec := by
  intro sigs
  induction sigs with
  | nil =>
    intro rm atr t now rm' results h
    simp only [eval_signals, Option.some.injEq, Prod.mk.injEq] at h
    rw [← h.1]
    exact ⟨rfl, rfl, rfl, rfl, rfl⟩
  | cons sig rest ih =>
    intro rm atr t now rm' results h
    simp only [eval_signals] at h
    cases h1 : rm.evaluate sig atr t now with
    | none => rw [h1] at h; simp at h
    | some pr =>
      obtain ⟨r, rm1⟩ := pr
      rw [h1] at h
      dsimp only at h
      cases h2 : eval_signals rm1 rest atr t now with
      | none => rw [h2] at h; simp at h
      | some pr2 =>
        obtain ⟨rm2, rs⟩ := pr2
        rw [h2] at h
        dsimp only at h
        simp only [Option.some.injEq, Prod.mk.injEq] at h
        obtain ⟨f1, f2, f3, f4, f5⟩ := evaluate_frame rm sig atr t now r rm1 h1
        obtain ⟨g1, g2, g3, g4, g5⟩ := ih rm1 atr t now rm2 rs h2
        rw [← h.1]
        exact ⟨g1.trans f1, g2.trans f2, g3.trans f3, g4.trans f4, g5.trans f5⟩

set_option maxHeartbeats 1000000 in
/-- What one engine bar does to the trading core, independently of the
signal phase: positions, trades, random-stream positions, the tracker and
the position count are fully determined by the fill and exit phases (the
bar's own signals only feed the pending queue, whose members are all
APPROVED). -/
theorem process_bar_core (env : EngineEnv) (n : ℕ) (s : EngineState)
    (bar : Bar) (s' : EngineState) (h : process_bar env n s bar = some s') :
    s'.om.positions = (om_on_bar backtestExecutor env.toExecutionEnv 3
        (fill_phase env s bar).om bar
        (env.clock (fill_phase env s bar).bars_processed)
        (fill_phase env s bar).bars_processed).1.positions ∧
    s'.trades = (fill_phase env s bar).trades ++
      (om_on_bar backtestExecutor env.toExecutionEnv 3
        (fill_phase env s bar).om bar
        (env.clock (fill_phase env s bar).bars_processed)
        (fill_phase env s bar).bars_processed).2 ∧
    s'.om.gidx = (om_on_bar backtestExecutor env.toExecutionEnv 3
        (fill_phase env s bar).om bar
        (env.clock (fill_phase env s bar).bars_processed)
        (fill_phase env s bar).bars_processed).1.gidx ∧
    s'.om.uidx = (om_on_bar backtestExecutor env.toExecutionEnv 3
        (fill_phase env s bar).om bar
        (env.clock (fill_phase env s bar).bars_processed)
        (fill_phase env s bar).bars_processed).1.uidx ∧
    s'.om.rm.daily_tracker = (om_on_bar backtestExecutor env.toExecutionEnv 3
        (fill_phase env s bar).om bar
        (env.clock (fill_phase env s bar).bars_processed)
        (fill_phase env s bar).bars_processed).1.rm.daily_tracker.update_unrealized
        (get_total_unrealized_pnl (om_on_bar backtestExecutor
          env.toExecutionEnv 3 (fill_phase env s bar).om bar
          (env.clock (fill_phase env s bar).bars_processed)
          (fill_phase env s bar).bars_processed).1) ∧
    s'.om.rm.open_positions = (om_on_bar backtestExecutor env.toExecutionEnv 3
        (fill_phase env s bar).om bar
        (env.clock (fill_phase env s bar).bars_processed)
        (fill_phase env s bar).bars_processed).1.rm.open_positions ∧
    s'.bars_processed = s.bars_processed + 1 ∧
    (∀ rr ∈ s'.pending, rr.decision = RiskDecision.approved) := by
  have hdec : ∀ d : RiskDecision, d ≠ RiskDecision.rejected →
      d = RiskDecision.approved := by
    intro d hd
    cases d with
    | approved => rfl
    | rejected => exact absurd rfl hd
  simp only [process_bar] at h
  cases hg : env.gen n bar with
  | none =>
    rw [hg] at h
    dsimp only at h
    injection h with h
    rw [← h]
    refine ⟨rfl, rfl, rfl, rfl, rfl, rfl, rfl, ?_⟩
    intro rr hrr
    simp at hrr
  | some pr =>
    obtain ⟨sigs, atr⟩ := pr
    rw [hg] at h
    dsimp only at h
    cases he : eval_signals
        (om_on_bar backtestExecutor env.toExecutionEnv 3
          (fill_phase env s bar).om bar
          (env.clock (fill_phase env s bar).bars_processed)
          (fill_phase env s bar).bars_processed).1.rm
        sigs atr bar.timestamp
        (env.clock (fill_phase env s bar).bars_processed) with
    | none => rw [he] at h; exact absurd h (by simp)
    | some rmres =>
      obtain ⟨rm, results⟩ := rmres
      obtain ⟨f1, f2, f3, f4, f5⟩ := eval_signals_frame sigs _ atr bar.timestamp
        (env.clock (fill_phase env s bar).bars_processed) rm results he
      rw [he] at h
      dsimp only at h
      injection h with h
      rw [← h]
      refine ⟨rfl, rfl, rfl, rfl, by rw [f1]; rfl, by rw [f2], rfl, ?_⟩
      intro rr hrr
      dsimp only at hrr
      rw [List.mem_filter] at hrr
      exact hdec rr.decision (by simpa using hrr.2)

/-- `process_bar` reads the signal-generation collaborator only at this
bar's index. -/
theorem process_bar_gen_eq (env : EngineEnv)
    (gen' : ℕ → Bar → Option (List Signal × ℚ)) (n : ℕ) (s : EngineState)
    (bar : Bar) (hg : env.gen n bar = gen' n bar) :
    process_bar { env with gen := gen' } n s bar = process_bar env n s bar := by
  have h1 : ({ env with gen := gen' } : EngineEnv).toExecutionEnv =
      env.toExecutionEnv := rfl
  have h3 : fill_phase { env with gen := gen' } = fill_phase env := rfl
  simp only [process_bar, h1, h3]
  rw [← hg]

set_option maxHeartbeats 1000000 in
/-- Changing what the strategies emit on a bar changes nothing about that
bar's positions, trades, random streams, tracker or position count — this
bar's signals are only queued. -/
theorem process_bar_gen_irrelevant (env : EngineEnv)
    (gen' : ℕ → Bar → Option (List Signal × ℚ)) (n : ℕ) (s : EngineState)
    (bar : Bar) (s₁ s₂ : EngineState)
    (h₁ : process_bar env n s bar = some s₁)
    (h₂ : process_bar { env with gen := gen' } n s bar = some s₂) :
    s₁.om.positions = s₂.om.positions ∧ s₁.trades = s₂.trades ∧
    s₁.om.gidx = s₂.om.gidx ∧ s₁.om.uidx = s₂.om.uidx ∧
    s₁.om.rm.daily_tracker = s₂.om.rm.daily_tracker ∧
    s₁.om.rm.open_positions = s₂.om.rm.open_positions ∧
    s₁.bars_processed = s₂.bars_processed := by
  obtain ⟨c1, c2, c3, c4, c5, c6, c7, _⟩ := process_bar_core env n s bar s₁ h₁
  obtain ⟨d1, d2, d3, d4, d5, d6, d7, _⟩ :=
    process_bar_core { env with gen := gen' } n s bar s₂ h₂
  have h1 : ({ env with gen := gen' } : EngineEnv).toExecutionEnv =
      env.toExecutionEnv := rfl
  have h3 : fill_phase { env with gen := gen' } = fill_phase env := rfl
  rw [h1, h3] at d1 d2 d3 d4 d5 d6
  exact ⟨c1.trans d1.symm, c2.trans d2.symm, c3.trans d3.symm,
    c4.trans d4.symm, c5.trans d5.symm, c6.trans d6.symm,
    c7.trans d7.symm⟩

theorem exec_exit_trade_gidx (ex : PaperExecutor) (env : ExecutionEnv)
    (s₁ s₂ : OMState) (p : Position) (price : ℚ) (reason : String) (et : ℕ)
    (hg : s₁.gidx = s₂.gidx) :
    (exec_exit ex env s₁ p price reason et).1 =
      (exec_exit ex env s₂ p price reason et).1 := by
  simp only [exec_exit, hg]

/-- The trades `force_close_all` produces depend on the Order-Manager state
only through its open positions and its gauss-stream position. -/
theorem force_close_all_trades_eq (ex : PaperExecutor) (env : ExecutionEnv)
    (price now : ℚ) (et : ℕ) :
    ∀ (ps : List Position) (a₁ a₂ : OMState × List Trade),
      a₁.1.gidx = a₂.1.gidx → a₁.2 = a₂.2 →
      (ps.foldl (fun (acc : OMState × List Trade) p =>
        let c := close_position ex env acc.1 p price "force_close" now et
        (c.2, acc.2 ++ [c.1])) a₁).2 =
      (ps.foldl (fun (acc : OMState × List Trade) p =>
        let c := close_position ex env acc.1 p price "force_close" now et
        (c.2, acc.2 ++ [c.1])) a₂).2 := by
  intro ps
  induction ps with
  | nil => intro a₁ a₂ _ ht; exact ht
  | cons p rest ih =>
    intro a₁ a₂ hg ht
    rw [List.foldl_cons, List.foldl_cons]
    apply ih
    · show a₁.1.gidx + 1 = a₂.1.gidx + 1
      rw [hg]
    · show a₁.2 ++ [(exec_exit ex env a₁.1 p price "force_close" et).1] =
        a₂.2 ++ [(exec_exit ex env a₂.1 p price "force_close" et).1]
      rw [ht, exec_exit_trade_gidx ex env a₁.1 a₂.1 p price "force_close" et hg]

theorem run_bars_gen (env : EngineEnv)
    (gen' : ℕ → Bar → Option (List Signal × ℚ)) :
    ∀ (bars : List Bar) (s : EngineState) (n : ℕ) (u₁ u₂ : EngineState),
      (∀ k b, k + 1 < n + bars.length → env.gen k b = gen' k b) →
      run_bars env s bars n = some u₁ →
      run_bars { env with gen := gen' } s bars n = some u₂ →
      u₁.om.positions = u₂.om.positions ∧ u₁.trades = u₂.trades ∧
      u₁.om.gidx = u₂.om.gidx ∧ u₁.bars_processed = u₂.bars_processed := by
  intro bars
  induction bars with
  | nil =>
    intro s n u₁ u₂ _ h₁ h₂
    simp only [run_bars, Option.some.injEq] at h₁ h₂
    rw [← h₁, ← h₂]
    exact ⟨rfl, rfl, rfl, rfl⟩
  | cons bar rest ih =>
    intro s n u₁ u₂ hag h₁ h₂
    simp only [run_bars] at h₁ h₂
    cases hp₁ : process_bar env n s bar with
    | none => rw [hp₁] at h₁; simp at h₁
    | some s₁ =>
      rw [hp₁] at h₁
      cases hp₂ : process_bar { env with gen := gen' } n s bar with
      | none => rw [hp₂] at h₂; simp at h₂
      | some s₂ =>
        rw [hp₂] at h₂
        rcases rest with _ | ⟨b2, rest'⟩
        · simp only [run_bars, Option.some.injEq] at h₁ h₂
          rw [← h₁, ← h₂]
          obtain ⟨c1, c2, c3, _, _, _, c7⟩ :=
            process_bar_gen_irrelevant env gen' n s bar s₁ s₂ hp₁ hp₂
          exact ⟨c1, c2, c3, c7⟩
        · have hgeq : env.gen n bar = gen' n bar := by
            apply hag n bar
            simp [List.length_cons]
          rw [process_bar_gen_eq env gen' n s bar hgeq, hp₁,
            Option.some.injEq] at hp₂
          rw [← hp₂] at h₂
          apply ih s₁ (n + 1) u₁ u₂ _ h₁ h₂
          intro k b hk
          apply hag k b
          simp only [List.length_cons] at hk ⊢
          omega

theorem force_close_trades_only (ex : PaperExecutor) (env : ExecutionEnv)
    (price now : ℚ) (et : ℕ) (s₁ s₂ : OMState)
    (hpos : s₁.positions = s₂.positions) (hg : s₁.gidx = s₂.gidx) :
    (force_close_all ex env s₁ price now et).2 =
      (force_close_all ex env s₂ price now et).2 := by
  simp only [force_close_all]
  rw [hpos]
  exact force_close_all_trades_eq ex env price now et s₂.positions
    (s₁, []) (s₂, []) hg rfl

set_option maxHeartbeats 1000000 in
theorem run_trades_gen (env : EngineEnv)
    (gen' : ℕ → Bar → Option (List Signal × ℚ)) (eq : ℚ) (cfg : RiskConfig)
    (bars : List Bar) (r₁ r₂ : EngineState)
    (hag : ∀ k b, k + 1 < bars.length → env.gen k b = gen' k b)
    (h₁ : run env eq cfg bars = some r₁)
    (h₂ : run { env with gen := gen' } eq cfg bars = some r₂) :
    r₁.trades = r₂.trades ∧ r₁.om.positions = r₂.om.positions := by
  cases bars with
  | nil =>
    simp only [run, Option.some.injEq] at h₁ h₂
    rw [← h₁, ← h₂]
    exact ⟨rfl, rfl⟩
  | cons bar rest =>
    have henv : ({ env with gen := gen' } : EngineEnv).toExecutionEnv =
        env.toExecutionEnv := rfl
    simp only [run, henv] at h₁ h₂
    cases hr₁ : run_bars env (initial_engine_state eq cfg) (bar :: rest) 0 with
    | none => rw [hr₁] at h₁; simp at h₁
    | some u₁ =>
      rw [hr₁] at h₁
      dsimp only at h₁
      cases hr₂ : run_bars { env with gen := gen' }
          (initial_engine_state eq cfg) (bar :: rest) 0 with
      | none => rw [hr₂] at h₂; simp at h₂
      | some u₂ =>
        rw [hr₂] at h₂
        dsimp only at h₂
        obtain ⟨c1, c2, c3, c4⟩ := run_bars_gen env gen' (bar :: rest)
          (initial_engine_state eq cfg) 0 u₁ u₂
          (fun k b hk => hag k b (by simpa using hk)) hr₁ hr₂
        by_cases hemp : u₁.om.positions = []
        · have hemp₂ : u₂.om.positions = [] := by rw [← c1]; exact hemp
          rw [if_pos hemp] at h₁
          rw [if_pos hemp₂] at h₂
          injection h₁ with h₁
          injection h₂ with h₂
          rw [← h₁, ← h₂]
          exact ⟨c2, c1⟩
        · have hemp₂ : ¬u₂.om.positions = [] := by rw [← c1]; exact hemp
          rw [if_neg hemp] at h₁
          rw [if_neg hemp₂] at h₂
          injection h₁ with h₁
          injection h₂ with h₂
          rw [← h₁, ← h₂]
          constructor
          · dsimp only
            rw [c2, ← c4]
            congr 1
            exact force_close_trades_only backtestExecutor env.toExecutionEnv
              ((bar :: rest).getLastD default).close_price
              (env.clock u₁.bars_processed) u₁.bars_processed u₁.om u₂.om c1 c3
          · dsimp only
            rfl

/-- C1: No-lookahead fill. (i) The fill phase empties the pending queue and
every position it opens prices its entry off *this bar's open* (plus
adverse slippage), coming from an approved result queued on the previous
bar; (ii) a bar's own signal phase only queues: after `process_bar` the
queue holds exactly approved results, and (iii) changing what the
strategies emit on a bar changes nothing about that same bar's positions or
trades; (iv) at run level, changing the signals of the final bar (the only
bar allowed to differ) leaves the whole trade list untouched — signals
approved on the final bar are never filled. -/
theorem C1_no_lookahead_fill :
    (∀ (env : EngineEnv) (s : EngineState) (bar : Bar),
      (fill_phase env s bar).pending = [] ∧
      ∃ new, (fill_phase env s bar).om.positions = s.om.positions ++ new ∧
        ∀ q ∈ new, ∃ rr ∈ s.pending, rr.decision = RiskDecision.approved ∧
          q.trade.quantity = rr.position_size ∧
          ∃ sig, rr.signal = some sig ∧ ∃ k,
            q.trade.entry_price = backtestExecutor.apply_slippage
              bar.open_price sig.direction true (env.gauss k) ∧
            sig.stop_loss = some q.trade.stop_loss ∧
            q.trade.direction = sig.direction ∧
            q.trade.status = TradeStatus.opened) ∧
    (∀ (env : EngineEnv) (n : ℕ) (s : EngineState) (bar : Bar)
      (s' : EngineState), process_bar env n s bar = some s' →
      ∀ rr ∈ s'.pending, rr.decision = RiskDecision.approved) ∧
    (∀ (env : EngineEnv) (gen' : ℕ → Bar → Option (List Signal × ℚ)) (n : ℕ)
      (s : EngineState) (bar : Bar) (s₁ s₂ : EngineState),
      process_bar env n s bar = some s₁ →
      process_bar { env with gen := gen' } n s bar = some s₂ →
      s₁.om.positions = s₂.om.positions ∧ s₁.trades = s₂.trades) ∧
    (∀ (env : EngineEnv) (gen' : ℕ → Bar → Option (List Signal × ℚ)) (eq : ℚ)
      (cfg : RiskConfig) (bars : List Bar) (r₁ r₂ : EngineState),
      (∀ k b, k + 1 < bars.length → env.gen k b = gen' k b) →
      run env eq cfg bars = some r₁ →
      run { env with gen := gen' } eq cfg bars = some r₂ →
      r₁.trades = r₂.trades ∧ r₁.om.positions = r₂.om.positions) :=
  ⟨fill_phase_new,
   fun env n s bar s' h => (process_bar_core env n s bar s' h).2.2.2.2.2.2.2,
   fun env gen' n s bar s₁ s₂ h₁ h₂ =>
     ⟨(process_bar_gen_irrelevant env gen' n s bar s₁ s₂ h₁ h₂).1,
      (process_bar_gen_irrelevant env gen' n s bar s₁ s₂ h₁ h₂).2.1⟩,
   run_trades_gen⟩

/-- A generator like `envC3`'s that additionally emits the long signal on
the final bar (index 1). -/
def genLate : ℕ → Bar → Option (List Signal × ℚ) :=
  fun n _ => if n ≤ 1 then some ([sigC5], 3) else some ([], 3)

/-- C1 witness: adding an (approved) signal on the final bar of the
concrete two-bar backtest leaves the trade list and final position set
unchanged — the final-bar approval is never filled. -/
theorem C1_no_lookahead_fill_witness :
    ∃ r₁ r₂, run envC3 10000 cfgBT [barC3a, barC3b] = some r₁ ∧
      run { envC3 with gen := genLate } 10000 cfgBT [barC3a, barC3b] =
        some r₂ ∧
      r₁.trades = r₂.trades ∧ r₁.om.positions = r₂.om.positions := by
  obtain ⟨r₁, h₁⟩ : ∃ r₁,
      run envC3 10000 cfgBT [barC3a, barC3b] = some r₁ := ⟨_, rfl⟩
  obtain ⟨r₂, h₂⟩ : ∃ r₂,
      run { envC3 with gen := genLate } 10000 cfgBT [barC3a, barC3b] =
        some r₂ := ⟨_, rfl⟩
  obtain ⟨ht, hp⟩ := C1_no_lookahead_fill.2.2.2 envC3 genLate 10000 cfgBT
    [barC3a, barC3b] r₁ r₂
    (by
      intro k b hk
      simp only [List.length_cons, List.length_nil] at hk
      have hk0 : k = 0 := by omega
      subst hk0
      rfl)
    h₁ h₂
  exact ⟨r₁, r₂, h₁, h₂, ht, hp⟩
